import Mathlib

/-!
Verification of the fuyugyo repository's date utilities, invitation-token
lifecycle and JWT session handling against its natural-language specification.

The TypeScript sources are shallowly embedded:

* JavaScript `Date` objects that the code only ever uses at local midnight are
  modelled by their epoch-day number (an `Int`); `Date` objects carrying a time
  of day are modelled by their millisecond timestamp.  The deployment target
  (Cloudflare Workers) runs with UTC as the local timezone, so local-time and
  UTC accessors coincide and no timezone offset is modelled.
* The calendar arithmetic (`MakeDay`, `YearFromTime`, `MonthFromTime`,
  `DateFromTime`) follows the ECMA-262 specification of those operations:
  `dayFromYear` is ECMA-262 `DayFromYear` verbatim, and the inverse
  decomposition is computed by a 400-year reduction followed by a bounded scan,
  which is proved below to satisfy ECMA-262's defining characterisation
  (`dayFromYear (yearFromDay z) ≤ z < dayFromYear (yearFromDay z + 1)`).
* JavaScript strings manipulated character by character (the `YYYY-MM-DD`
  date strings) are modelled as lists of UTF-16 code units (`List Nat`).
  Strings that are only compared for equality (ids, display names, tokens)
  stay Lean `String`s.
-/

set_option maxRecDepth 100000

/-! ## ECMA-262 calendar core -/

/-- ECMA-262 `DayFromYear(y)`: the epoch-day number of January 1 of year `y`.
Divisions are mathematical floors, which `Int./` (T-flooring `ediv` with a
positive literal divisor) computes exactly. -/
def dayFromYear (y : Int) : Int :=
  365 * (y - 1970) + (y - 1969) / 4 - (y - 1901) / 100 + (y - 1601) / 400

/-- ECMA-262 leap-year predicate (`DaysInYear(y) = 366`). -/
def isLeapYear (y : Int) : Bool :=
  (y % 4 == 0 && y % 100 != 0) || (y % 400 == 0)

/-- ECMA-262 `DaysInYear(y)`. -/
def daysInYear (y : Int) : Int :=
  if isLeapYear y then 366 else 365

/-- Number of days in 1-based month `m` of a year with leap flag `leap`. -/
def daysInMonth (leap : Bool) (m : Int) : Int :=
  if m = 2 then (if leap then 29 else 28)
  else if m = 4 ∨ m = 6 ∨ m = 9 ∨ m = 11 then 30
  else 31

/-- ECMA-262 `InLeapYear` as a 0-or-1 day offset. -/
def leapOffset (leap : Bool) : Int :=
  if leap then 1 else 0

/-- Days of the year strictly before 1-based month `m` (ECMA-262's month
boundaries used by `MonthFromTime` and `DateFromTime`). -/
def daysBeforeMonth (leap : Bool) (m : Int) : Int :=
  if m = 1 then 0
  else if m = 2 then 31
  else if m = 3 then 59 + leapOffset leap
  else if m = 4 then 90 + leapOffset leap
  else if m = 5 then 120 + leapOffset leap
  else if m = 6 then 151 + leapOffset leap
  else if m = 7 then 181 + leapOffset leap
  else if m = 8 then 212 + leapOffset leap
  else if m = 9 then 243 + leapOffset leap
  else if m = 10 then 273 + leapOffset leap
  else if m = 11 then 304 + leapOffset leap
  else 334 + leapOffset leap

/-- Epoch-day number of the civil date `(y, m, d)` with 1-based month `m`;
`d` may lie outside the month, extending linearly exactly as ECMA-262
`MakeDay` does via `Date(t) = ... + date - 1`. -/
def makeDayCivil (y m d : Int) : Int :=
  dayFromYear y + daysBeforeMonth (isLeapYear y) m + (d - 1)

/-- ECMA-262 `MakeDay(year, month, date)` with 0-based `month`, including the
overflow normalisation `ym = year + floor(month / 12)`, `mn = month modulo 12`. -/
def makeDay (year month date : Int) : Int :=
  makeDayCivil (year + month / 12) (month % 12 + 1) date

/-- Bounded upward scan locating the year containing epoch day `z`, starting
from a year `y` with `dayFromYear y ≤ z`. -/
def yearScan : Nat → Int → Int → Int
  | 0, y, _ => y
  | fuel + 1, y, z => if z < dayFromYear (y + 1) then y else yearScan fuel (y + 1) z

/-- ECMA-262 `YearFromTime` on epoch days: reduce by whole 400-year cycles
(146097 days each) into the window beginning at year 1600, then scan the at
most 400 candidate years. -/
def yearFromDay (z : Int) : Int :=
  yearScan 400 (1600 + 400 * ((z - dayFromYear 1600) / 146097)) z

/-- ECMA-262 `DayWithinYear` on epoch days. -/
def dayWithinYear (z : Int) : Int :=
  z - dayFromYear (yearFromDay z)

/-- ECMA-262 `MonthFromTime` (0-based month) as a function of the leap flag
and the day within the year. -/
def monthFromDayOfYear (leap : Bool) (dwy : Int) : Int :=
  if dwy < 31 then 0
  else if dwy < 59 + leapOffset leap then 1
  else if dwy < 90 + leapOffset leap then 2
  else if dwy < 120 + leapOffset leap then 3
  else if dwy < 151 + leapOffset leap then 4
  else if dwy < 181 + leapOffset leap then 5
  else if dwy < 212 + leapOffset leap then 6
  else if dwy < 243 + leapOffset leap then 7
  else if dwy < 273 + leapOffset leap then 8
  else if dwy < 304 + leapOffset leap then 9
  else if dwy < 334 + leapOffset leap then 10
  else 11

/-- JavaScript `Date.prototype.getFullYear` for a date at epoch day `z`. -/
def jsGetFullYear (z : Int) : Int :=
  yearFromDay z

/-- JavaScript `Date.prototype.getMonth` (0-based) for a date at epoch day `z`. -/
def jsGetMonth (z : Int) : Int :=
  monthFromDayOfYear (isLeapYear (yearFromDay z)) (dayWithinYear z)

/-- JavaScript `Date.prototype.getDate` (ECMA-262 `DateFromTime`) for a date at
epoch day `z`. -/
def jsGetDate (z : Int) : Int :=
  dayWithinYear z - daysBeforeMonth (isLeapYear (yearFromDay z)) (jsGetMonth z + 1) + 1

/-- The `new Date(year, month, date)` constructor (0-based `month`) at local
midnight, as an epoch day.  Per ECMA-262 `MakeFullYear`, an integral `year`
between 0 and 99 is interpreted as `1900 + year`. -/
def jsNewDateDay (year month date : Int) : Int :=
  makeDay (if 0 ≤ year ∧ year ≤ 99 then 1900 + year else year) month date

/-! ### Correctness of the calendar core -/

/-- One-year step of `dayFromYear`. -/
theorem dayFromYear_succ (y : Int) :
    dayFromYear (y + 1) = dayFromYear y + daysInYear y := by
  simp only [dayFromYear, daysInYear, isLeapYear]
  split <;> rename_i h <;>
    simp only [Bool.or_eq_true, Bool.and_eq_true, beq_iff_eq, bne_iff_ne] at h <;> omega

/-- Each 400-year cycle contains exactly 146097 days. -/
theorem dayFromYear_add_400 (y k : Int) :
    dayFromYear (y + 400 * k) = dayFromYear y + 146097 * k := by
  simp only [dayFromYear]
  omega

/-- Years have at least 365 days, so `dayFromYear` is monotone. -/
theorem dayFromYear_mono {a b : Int} (h : a ≤ b) : dayFromYear a ≤ dayFromYear b := by
  simp only [dayFromYear]; omega

/-- The scan returns a year whose day interval contains `z`, provided the scan
starts at or below the right year and the fuel reaches it. -/
theorem yearScan_spec : ∀ (fuel : Nat) (y z : Int), dayFromYear y ≤ z →
    z < dayFromYear (y + fuel) →
    dayFromYear (yearScan fuel y z) ≤ z ∧ z < dayFromYear (yearScan fuel y z + 1) := by
  intro fuel
  induction fuel with
  | zero => intro y z h1 h2; simp only [Nat.cast_zero, add_zero] at h2; omega
  | succ n ih =>
      intro y z h1 h2
      simp only [yearScan]
      split
      · exact ⟨h1, by assumption⟩
      · rename_i hlt
        push_neg at hlt
        have : z < dayFromYear (y + 1 + n) := by
          have : (y : Int) + (n + 1 : Nat) = y + 1 + n := by push_cast; ring
          rwa [this] at h2
        exact ih (y + 1) z hlt this

/-- Defining characterisation of `yearFromDay` (ECMA-262 `YearFromTime`): it
returns the unique year whose day range contains `z`. -/
theorem yearFromDay_spec (z : Int) :
    dayFromYear (yearFromDay z) ≤ z ∧ z < dayFromYear (yearFromDay z + 1) := by
  have h1600 : dayFromYear 1600 = -135140 := by decide
  set k := (z - dayFromYear 1600) / 146097 with hk
  have hkb : 146097 * k ≤ z - dayFromYear 1600 ∧ z - dayFromYear 1600 < 146097 * (k + 1) := by
    rw [hk, h1600]; omega
  have hlow : dayFromYear (1600 + 400 * k) ≤ z := by
    rw [dayFromYear_add_400]; omega
  have hhigh : z < dayFromYear (1600 + 400 * k + 400) := by
    have : (1600 : Int) + 400 * k + 400 = 1600 + 400 * (k + 1) := by ring
    rw [this, dayFromYear_add_400]; omega
  have := yearScan_spec 400 (1600 + 400 * k) z hlow (by
    have : ((400 : Nat) : Int) = 400 := by norm_num
    rw [this]; exact hhigh)
  simpa [yearFromDay, hk] using this

/-- The year intervals are disjoint, so the characterisation pins down
`yearFromDay`. -/
theorem yearFromDay_eq_of_bounds {y z : Int} (h1 : dayFromYear y ≤ z)
    (h2 : z < dayFromYear (y + 1)) : yearFromDay z = y := by
  have hs := yearFromDay_spec z
  by_contra hne
  rcases lt_or_gt_of_ne hne with hlt | hgt
  · have : yearFromDay z + 1 ≤ y := by omega
    have := dayFromYear_mono this
    omega
  · have : y + 1 ≤ yearFromDay z := by omega
    have := dayFromYear_mono this
    omega

/-- Finite table: for every day of a year, `monthFromDayOfYear` lands in a
month whose day range contains it.  Checked by evaluation over the at most 366
days of a year. -/
theorem monthFromDayOfYear_table : ∀ (leap : Bool) (n : Nat), n < 366 →
    ((n : Int) < 365 + leapOffset leap →
      0 ≤ monthFromDayOfYear leap n ∧ monthFromDayOfYear leap n ≤ 11 ∧
      daysBeforeMonth leap (monthFromDayOfYear leap n + 1) ≤ (n : Int) ∧
      (n : Int) < daysBeforeMonth leap (monthFromDayOfYear leap n + 1) +
        daysInMonth leap (monthFromDayOfYear leap n + 1)) := by
  intro leap
  cases leap <;> decide

/-- Finite table: `monthFromDayOfYear` recovers the month of a valid civil
day-of-month pair.  Checked by evaluation over the 12 months and at most 31
days. -/
theorem monthFromDayOfYear_recover_table : ∀ (leap : Bool) (mn : Nat), mn < 12 →
    ∀ dn : Nat, dn < 31 →
    ((dn : Int) < daysInMonth leap ((mn : Int) + 1) →
      monthFromDayOfYear leap (daysBeforeMonth leap ((mn : Int) + 1) + (dn : Int)) = (mn : Int) ∧
      0 ≤ daysBeforeMonth leap ((mn : Int) + 1) + (dn : Int) ∧
      daysBeforeMonth leap ((mn : Int) + 1) + (dn : Int) < 365 + leapOffset leap ∧
      daysInMonth leap ((mn : Int) + 1) ≤ 31) := by
  intro leap
  cases leap <;> decide

/-- Day-within-year offset and month recovery for a valid civil date. -/
theorem daysBeforeMonth_spec (leap : Bool) (m d : Int) (h1 : 1 ≤ m) (h2 : m ≤ 12)
    (h3 : 1 ≤ d) (h4 : d ≤ daysInMonth leap m) :
    0 ≤ daysBeforeMonth leap m + (d - 1) ∧
    daysBeforeMonth leap m + (d - 1) < 365 + leapOffset leap ∧
    monthFromDayOfYear leap (daysBeforeMonth leap m + (d - 1)) = m - 1 := by
  obtain ⟨mn, rfl⟩ : ∃ mn : Nat, m = (mn : Int) + 1 := ⟨(m - 1).toNat, by omega⟩
  obtain ⟨dn, rfl⟩ : ∃ dn : Nat, d = (dn : Int) + 1 := ⟨(d - 1).toNat, by omega⟩
  have hmn : mn < 12 := by omega
  have hd31 : daysInMonth leap ((mn : Int) + 1) ≤ 31 :=
    (monthFromDayOfYear_recover_table leap mn hmn 0 (by omega) (by omega)).2.2.2
  have hdn : dn < 31 := by omega
  have := monthFromDayOfYear_recover_table leap mn hmn dn hdn (by omega)
  have he : daysBeforeMonth leap ((mn : Int) + 1) + ((dn : Int) + 1 - 1) =
      daysBeforeMonth leap ((mn : Int) + 1) + (dn : Int) := by ring
  rw [he]
  exact ⟨this.2.1, this.2.2.1, by rw [this.1]; ring⟩

/-- Bounds and defining property of the month extracted from a day of year. -/
theorem monthFromDayOfYear_spec (leap : Bool) (dwy : Int) (h0 : 0 ≤ dwy)
    (h1 : dwy < 365 + leapOffset leap) :
    0 ≤ monthFromDayOfYear leap dwy ∧ monthFromDayOfYear leap dwy ≤ 11 ∧
    daysBeforeMonth leap (monthFromDayOfYear leap dwy + 1) ≤ dwy ∧
    dwy < daysBeforeMonth leap (monthFromDayOfYear leap dwy + 1) +
      daysInMonth leap (monthFromDayOfYear leap dwy + 1) := by
  obtain ⟨n, rfl⟩ : ∃ n : Nat, dwy = (n : Int) := ⟨dwy.toNat, by omega⟩
  have hl : leapOffset leap ≤ 1 := by
    cases leap <;> simp [leapOffset]
  exact monthFromDayOfYear_table leap n (by omega) h1

/-- Size of a year expressed through `leapOffset`. -/
theorem daysInYear_eq (y : Int) : daysInYear y = 365 + leapOffset (isLeapYear y) := by
  cases h : isLeapYear y <;> simp [daysInYear, leapOffset, h]

/-- Reading the calendar fields back from the day number of a valid civil date
returns exactly that date. -/
theorem jsGet_makeDayCivil (y m d : Int) (h1 : 1 ≤ m) (h2 : m ≤ 12) (h3 : 1 ≤ d)
    (h4 : d ≤ daysInMonth (isLeapYear y) m) :
    jsGetFullYear (makeDayCivil y m d) = y ∧
    jsGetMonth (makeDayCivil y m d) = m - 1 ∧
    jsGetDate (makeDayCivil y m d) = d := by
  obtain ⟨hdwy0, hdwy1, hmonth⟩ :=
    daysBeforeMonth_spec (isLeapYear y) m d h1 h2 h3 h4
  have hyear : yearFromDay (makeDayCivil y m d) = y := by
    apply yearFromDay_eq_of_bounds
    · simp only [makeDayCivil]; omega
    · rw [dayFromYear_succ, daysInYear_eq]
      simp only [makeDayCivil]; omega
  have hdwy : dayWithinYear (makeDayCivil y m d) =
      daysBeforeMonth (isLeapYear y) m + (d - 1) := by
    simp only [dayWithinYear, hyear]
    simp only [makeDayCivil]
    ring
  refine ⟨hyear, ?_, ?_⟩
  · simp only [jsGetMonth, hyear, hdwy, hmonth]
  · simp only [jsGetDate, jsGetMonth, hyear, hdwy, hmonth]
    have he : m - 1 + 1 = m := by ring
    rw [he]
    ring

/-- Recomposing the calendar fields of any epoch day yields that day back, and
the fields satisfy the civil-date validity bounds. -/
theorem makeDayCivil_jsGet (z : Int) :
    makeDayCivil (jsGetFullYear z) (jsGetMonth z + 1) (jsGetDate z) = z ∧
    1 ≤ jsGetMonth z + 1 ∧ jsGetMonth z + 1 ≤ 12 ∧ 1 ≤ jsGetDate z ∧
    jsGetDate z ≤ daysInMonth (isLeapYear (jsGetFullYear z)) (jsGetMonth z + 1) := by
  obtain ⟨hlow, hhigh⟩ := yearFromDay_spec z
  rw [dayFromYear_succ, daysInYear_eq] at hhigh
  have hdwy0 : 0 ≤ z - dayFromYear (yearFromDay z) := by omega
  have hdwy1 : z - dayFromYear (yearFromDay z) <
      365 + leapOffset (isLeapYear (yearFromDay z)) := by omega
  obtain ⟨hm0, hm1, hb0, hb1⟩ :=
    monthFromDayOfYear_spec (isLeapYear (yearFromDay z))
      (z - dayFromYear (yearFromDay z)) hdwy0 hdwy1
  simp only [makeDayCivil, jsGetFullYear, jsGetDate, jsGetMonth, dayWithinYear]
  refine ⟨by omega, by omega, by omega, by omega, by omega⟩

/-- ECMA-262 `MakeDay` with an in-range 0-based month needs no normalisation. -/
theorem makeDay_of_month_range (y m d : Int) (h1 : 0 ≤ m) (h2 : m ≤ 11) :
    makeDay y m d = makeDayCivil y (m + 1) d := by
  have e1 : y + m / 12 = y := by omega
  have e2 : m % 12 + 1 = m + 1 := by omega
  rw [makeDay, e1, e2]

/-- ECMA-262 `MakeDay` at 0-based month 12 rolls into January of the next
year. -/
theorem makeDay_twelve (y d : Int) : makeDay y 12 d = makeDayCivil (y + 1) 1 d := by
  norm_num [makeDay]

/-! ## JavaScript strings as code-unit lists -/

/-- A JavaScript string, as its list of UTF-16 code units. -/
abbrev JsString := List Nat

/-- Code units of a Lean string literal; used to write concrete examples
readably. -/
def strCodes (s : String) : JsString :=
  s.data.map Char.toNat

/-- ASCII digit test (the regex class `\d`). -/
def isDigitCode (c : Nat) : Bool :=
  48 ≤ c && c ≤ 57

/-- JavaScript `Number.parseInt(s, 10)` restricted to all-digit strings. -/
def digitsToNat (cs : List Nat) : Nat :=
  cs.foldl (fun a c => 10 * a + (c - 48)) 0

/-- Decimal digit code units of `n`, fuel-driven so that every definition in
this file is structurally recursive. -/
def natToDigitsAux : Nat → Nat → List Nat
  | 0, _ => []
  | fuel + 1, n => if n < 10 then [48 + n] else natToDigitsAux fuel (n / 10) ++ [48 + n % 10]

/-- JavaScript `String(n)` for a nonnegative integral Number.  32 digits of
fuel cover every value a JavaScript `Date` accessor can produce (years are
bounded by ±275760). -/
def natToDigits (n : Nat) : List Nat :=
  natToDigitsAux 32 n

/-- JavaScript `String(i)` for an integral Number. -/
def intToString (i : Int) : JsString :=
  if i < 0 then 45 :: natToDigits (-i).toNat else natToDigits i.toNat

/-- `String.prototype.padStart(2, "0")`. -/
def padStart2 (s : JsString) : JsString :=
  if s.length < 2 then List.replicate (2 - s.length) 48 ++ s else s

/-- `String.prototype.split("-")` (45 is the code unit of `-`). -/
def splitOnHyphen : JsString → List JsString
  | [] => [[]]
  | c :: rest =>
    if c = 45 then [] :: splitOnHyphen rest
    else
      match splitOnHyphen rest with
      | [] => [[c]]
      | p :: ps => (c :: p) :: ps

/-! ### Digit-printing lemmas -/

/-- Base step of the digit printer. -/
theorem natToDigitsAux_base (fuel n : Nat) (h : n < 10) :
    natToDigitsAux (fuel + 1) n = [48 + n] := by
  simp [natToDigitsAux, h]

/-- Recursive step of the digit printer. -/
theorem natToDigitsAux_step (fuel n : Nat) (h : ¬ n < 10) :
    natToDigitsAux (fuel + 1) n = natToDigitsAux fuel (n / 10) ++ [48 + n % 10] := by
  simp [natToDigitsAux, h]

/-- One-digit numbers print as a single code unit. -/
theorem natToDigits_one (n : Nat) (h : n < 10) : natToDigits n = [48 + n] := by
  have e := natToDigitsAux_base 31 n h
  norm_num at e
  rw [natToDigits, e]

/-- Two-digit numbers print as two code units. -/
theorem natToDigits_two (n : Nat) (h1 : 10 ≤ n) (h2 : n < 100) :
    natToDigits n = [48 + n / 10, 48 + n % 10] := by
  have e1 := natToDigitsAux_step 31 n (by omega)
  have e2 := natToDigitsAux_base 30 (n / 10) (by omega)
  norm_num at e1 e2
  rw [natToDigits, e1, e2]
  rfl

/-- Four-digit numbers print as four code units. -/
theorem natToDigits_four (n : Nat) (h1 : 1000 ≤ n) (h2 : n < 10000) :
    natToDigits n = [48 + n / 1000, 48 + n / 100 % 10, 48 + n / 10 % 10, 48 + n % 10] := by
  have e1 := natToDigitsAux_step 31 n (by omega)
  have e2 := natToDigitsAux_step 30 (n / 10) (by omega)
  have e3 := natToDigitsAux_step 29 (n / 10 / 10) (by omega)
  have e4 := natToDigitsAux_base 28 (n / 10 / 10 / 10) (by omega)
  norm_num at e1 e2 e3 e4
  rw [natToDigits, e1, e2, e3, e4]
  have d1 : n / 10 / 10 / 10 = n / 1000 := by omega
  have d2 : n / 10 / 10 % 10 = n / 100 % 10 := by omega
  have d3 : n / 10 % 10 = n / 10 % 10 := rfl
  rw [d1, d2]
  rfl

/-- `String(i)` of a nonnegative integer prints its digits. -/
theorem intToString_ofNat (n : Nat) : intToString (n : Int) = natToDigits n := by
  simp [intToString]

/-! ## Embedding of `src/lib/utils/date.ts` -/

/-- Validation errors returned by `validateDateFormat`, one constructor per
`return` site in the source, carrying the values interpolated into the
message. -/
inductive DateError where
  | badFormat (s : JsString)
  | missingPart (s : JsString)
  | monthOutOfRange (month : Int)
  | dayOutOfRange (year month day maxDay : Int)
  | invalidCalendarDate (s : JsString)
  deriving DecidableEq

/-- The regex `DATE_FORMAT_REGEX = /^\d{4}-\d{2}-\d{2}$/`. -/
def matchesDateFormatRegex (s : JsString) : Bool :=
  match s with
  | [y1, y2, y3, y4, h1, m1, m2, h2, d1, d2] =>
    isDigitCode y1 && isDigitCode y2 && isDigitCode y3 && isDigitCode y4 &&
    h1 == 45 && isDigitCode m1 && isDigitCode m2 && h2 == 45 &&
    isDigitCode d1 && isDigitCode d2
  | _ => false

/-- `validateDateFormat` from `src/lib/utils/date.ts`: regex check, split on
`-`, `Number.parseInt` of the three parts, month range check, day range check
against `new Date(year, month, 0).getDate()`, and the final `Date` round-trip
check.  Returns `none` on success, mirroring `null`. -/
def validateDateFormat (dateString : JsString) : Option DateError :=
  if ¬ matchesDateFormatRegex dateString then some (.badFormat dateString)
  else
    let parts := splitOnHyphen dateString
    let yearStr := parts.getD 0 []
    let monthStr := parts.getD 1 []
    let dayStr := parts.getD 2 []
    if yearStr = [] ∨ monthStr = [] ∨ dayStr = [] then some (.missingPart dateString)
    else
      let year : Int := digitsToNat yearStr
      let month : Int := digitsToNat monthStr
      let day : Int := digitsToNat dayStr
      if month < 1 ∨ 12 < month then some (.monthOutOfRange month)
      else
        let maxDay := jsGetDate (jsNewDateDay year month 0)
        if day < 1 ∨ maxDay < day then some (.dayOutOfRange year month day maxDay)
        else
          let date := jsNewDateDay year (month - 1) day
          if jsGetFullYear date ≠ year ∨ jsGetMonth date ≠ month - 1 ∨ jsGetDate date ≠ day
          then some (.invalidCalendarDate dateString)
          else none

/-- `parseLocalDate` from `src/lib/utils/date.ts`: validates, re-splits, and
builds `new Date(year, month - 1, day)`.  A thrown `Error` is modelled as
`Except.error`. -/
def parseLocalDate (dateString : JsString) : Except DateError Int :=
  match validateDateFormat dateString with
  | some e => .error e
  | none =>
    let parts := splitOnHyphen dateString
    let yearStr := parts.getD 0 []
    let monthStr := parts.getD 1 []
    let dayStr := parts.getD 2 []
    if yearStr = [] ∨ monthStr = [] ∨ dayStr = [] then .error (.missingPart dateString)
    else
      .ok (jsNewDateDay (digitsToNat yearStr) ((digitsToNat monthStr : Int) - 1)
        (digitsToNat dayStr))

/-- `formatLocalDate` from `src/lib/utils/date.ts`:
`String(year) + "-" + String(month + 1).padStart(2, "0") + "-" +
String(date).padStart(2, "0")`. -/
def formatLocalDate (z : Int) : JsString :=
  intToString (jsGetFullYear z) ++ [45] ++ padStart2 (intToString (jsGetMonth z + 1)) ++
    [45] ++ padStart2 (intToString (jsGetDate z))

/-- `Date.prototype.setDate(n)` on a midnight date: ECMA-262 `MakeDay` of the
current year and month with the new day number. -/
def jsSetDateDay (z n : Int) : Int :=
  makeDay (yearFromDay z) (jsGetMonth z) n

/-- `addDays` from `src/lib/utils/date.ts`: parse, `setDate(getDate() + days)`,
format. -/
def addDays (dateString : JsString) (days : Int) : Except DateError JsString :=
  match parseLocalDate dateString with
  | .error e => .error e
  | .ok date => .ok (formatLocalDate (jsSetDateDay date (jsGetDate date + days)))

/-! ### Supporting month tables -/

/-- The month boundaries are cumulative month lengths. -/
theorem daysBeforeMonth_succ : ∀ (leap : Bool) (mn : Nat), mn < 12 →
    daysBeforeMonth leap ((mn : Int) + 1 + 1) =
      daysBeforeMonth leap ((mn : Int) + 1) + daysInMonth leap ((mn : Int) + 1) ∨
    (mn : Int) = 11 := by
  intro leap
  cases leap <;> decide

/-- Month lengths are between 28 and 31 days. -/
theorem daysInMonth_bounds : ∀ (leap : Bool) (mn : Nat), mn < 12 →
    28 ≤ daysInMonth leap ((mn : Int) + 1) ∧ daysInMonth leap ((mn : Int) + 1) ≤ 31 := by
  intro leap
  cases leap <;> decide

/-- Boundary of December. -/
theorem daysBeforeMonth_twelve (leap : Bool) :
    daysBeforeMonth leap 12 + daysInMonth leap 12 = 365 + leapOffset leap := by
  cases leap <;> decide

/-- `new Date(y, m, 0)` is the last day of 1-based month `m` of year `y`. -/
theorem makeDay_month_zero (y m : Int) (h1 : 1 ≤ m) (h2 : m ≤ 12) :
    makeDay y m 0 = makeDayCivil y m (daysInMonth (isLeapYear y) m) := by
  rcases eq_or_lt_of_le h2 with h12 | h11
  · subst h12
    rw [makeDay_twelve]
    simp only [makeDayCivil]
    rw [dayFromYear_succ, daysInYear_eq]
    have h1v : daysBeforeMonth (isLeapYear (y + 1)) 1 = 0 := by
      cases isLeapYear (y + 1) <;> decide
    have h12v := daysBeforeMonth_twelve (isLeapYear y)
    omega
  · obtain ⟨mn, rfl⟩ : ∃ mn : Nat, m = (mn : Int) + 1 := ⟨(m - 1).toNat, by omega⟩
    have hmn : mn < 12 := by omega
    rw [makeDay_of_month_range y ((mn : Int) + 1) 0 (by omega) (by omega)]
    simp only [makeDayCivil]
    rcases daysBeforeMonth_succ (isLeapYear y) mn hmn with he | he
    · omega
    · omega

/-- Positivity of month lengths. -/
theorem daysInMonth_pos (leap : Bool) (m : Int) (h1 : 1 ≤ m) (h2 : m ≤ 12) :
    1 ≤ daysInMonth leap m := by
  obtain ⟨mn, rfl⟩ : ∃ mn : Nat, m = (mn : Int) + 1 := ⟨(m - 1).toNat, by omega⟩
  have := daysInMonth_bounds leap mn (by omega)
  omega

/-- `new Date(y, month, 0).getDate()` computes the length of 1-based month
`month` of year `y`, for years outside the two-digit rewrite range. -/
theorem jsNewDateDay_maxDay (y m : Int) (h1 : 1 ≤ m) (h2 : m ≤ 12)
    (hy : ¬(0 ≤ y ∧ y ≤ 99)) :
    jsGetDate (jsNewDateDay y m 0) = daysInMonth (isLeapYear y) m := by
  rw [jsNewDateDay, if_neg hy, makeDay_month_zero y m h1 h2]
  exact (jsGet_makeDayCivil y m (daysInMonth (isLeapYear y) m) h1 h2
    (daysInMonth_pos (isLeapYear y) m h1 h2) (le_refl _)).2.2

/-- `setDate(getDate() + days)` shifts the epoch day by exactly `days`. -/
theorem jsSetDateDay_shift (z days : Int) :
    jsSetDateDay z (jsGetDate z + days) = z + days := by
  obtain ⟨hz, hm1, hm2, hd1, hd2⟩ := makeDayCivil_jsGet z
  rw [jsSetDateDay, makeDay_of_month_range (yearFromDay z) (jsGetMonth z)
    (jsGetDate z + days) (by omega) (by omega)]
  simp only [makeDayCivil] at hz ⊢
  simp only [jsGetFullYear] at hz
  omega

/-- Splitting a `dddd-dd-dd` shaped string on hyphens. -/
theorem splitOnHyphen_ten (y1 y2 y3 y4 m1 m2 d1 d2 : Nat)
    (hy1 : y1 ≠ 45) (hy2 : y2 ≠ 45) (hy3 : y3 ≠ 45) (hy4 : y4 ≠ 45)
    (hm1 : m1 ≠ 45) (hm2 : m2 ≠ 45) (hd1 : d1 ≠ 45) (hd2 : d2 ≠ 45) :
    splitOnHyphen [y1, y2, y3, y4, 45, m1, m2, 45, d1, d2] =
      [[y1, y2, y3, y4], [m1, m2], [d1, d2]] := by
  simp [splitOnHyphen, hy1, hy2, hy3, hy4, hm1, hm2, hd1, hd2]

/-- Parsing two digit code units. -/
theorem digitsToNat_two_val (a b : Nat) : digitsToNat [48 + a, 48 + b] = 10 * a + b := by
  simp [digitsToNat]

/-- Parsing four digit code units. -/
theorem digitsToNat_four_val (a b c d : Nat) :
    digitsToNat [48 + a, 48 + b, 48 + c, 48 + d] = 1000 * a + 100 * b + 10 * c + d := by
  simp [digitsToNat]
  ring

/-- A string matching the date regex is four digits, a hyphen, two digits, a
hyphen, two digits. -/
theorem matchesDateFormatRegex_elim (s : JsString) (h : matchesDateFormatRegex s = true) :
    ∃ a1 a2 a3 a4 b1 b2 c1 c2 : Nat,
      s = [48 + a1, 48 + a2, 48 + a3, 48 + a4, 45, 48 + b1, 48 + b2, 45, 48 + c1, 48 + c2] ∧
      a1 ≤ 9 ∧ a2 ≤ 9 ∧ a3 ≤ 9 ∧ a4 ≤ 9 ∧ b1 ≤ 9 ∧ b2 ≤ 9 ∧ c1 ≤ 9 ∧ c2 ≤ 9 := by
  rcases s with _|⟨y1,_|⟨y2,_|⟨y3,_|⟨y4,_|⟨h1,_|⟨m1,_|⟨m2,_|⟨h2,_|⟨d1,_|⟨d2,_|⟨e,t⟩⟩⟩⟩⟩⟩⟩⟩⟩⟩⟩ <;>
    simp [matchesDateFormatRegex, isDigitCode] at h
  obtain ⟨⟨⟨⟨⟨⟨⟨⟨⟨hy1, hy2⟩, hy3⟩, hy4⟩, hh1⟩, hm1⟩, hm2⟩, hh2⟩, hd1⟩, hd2⟩ := h
  refine ⟨y1 - 48, y2 - 48, y3 - 48, y4 - 48, m1 - 48, m2 - 48, d1 - 48, d2 - 48,
    ?_, ?_, ?_, ?_, ?_, ?_, ?_, ?_, ?_⟩ <;>
    first
      | (simp only [List.cons.injEq, and_true]; omega)
      | omega

/-- Everything `validateDateFormat dateString = none` implies: the string has
the `dddd-dd-dd` shape and the parsed year, month and day pass the range and
`Date` round-trip checks. -/
theorem validateDateFormat_none_elim (s : JsString) (h : validateDateFormat s = none) :
    ∃ a1 a2 a3 a4 b1 b2 c1 c2 : Nat,
      s = [48 + a1, 48 + a2, 48 + a3, 48 + a4, 45, 48 + b1, 48 + b2, 45, 48 + c1, 48 + c2] ∧
      a1 ≤ 9 ∧ a2 ≤ 9 ∧ a3 ≤ 9 ∧ a4 ≤ 9 ∧ b1 ≤ 9 ∧ b2 ≤ 9 ∧ c1 ≤ 9 ∧ c2 ≤ 9 ∧
      1 ≤ 10 * (b1 : Int) + b2 ∧ 10 * (b1 : Int) + b2 ≤ 12 ∧
      1 ≤ 10 * (c1 : Int) + c2 ∧
      10 * (c1 : Int) + c2 ≤ jsGetDate (jsNewDateDay
        (1000 * (a1 : Int) + 100 * a2 + 10 * a3 + a4) (10 * (b1 : Int) + b2) 0) ∧
      jsGetFullYear (jsNewDateDay (1000 * (a1 : Int) + 100 * a2 + 10 * a3 + a4)
          (10 * (b1 : Int) + b2 - 1) (10 * (c1 : Int) + c2)) =
        1000 * (a1 : Int) + 100 * a2 + 10 * a3 + a4 ∧
      jsGetMonth (jsNewDateDay (1000 * (a1 : Int) + 100 * a2 + 10 * a3 + a4)
          (10 * (b1 : Int) + b2 - 1) (10 * (c1 : Int) + c2)) =
        10 * (b1 : Int) + b2 - 1 ∧
      jsGetDate (jsNewDateDay (1000 * (a1 : Int) + 100 * a2 + 10 * a3 + a4)
          (10 * (b1 : Int) + b2 - 1) (10 * (c1 : Int) + c2)) =
        10 * (c1 : Int) + c2 := by
  have hre : matchesDateFormatRegex s = true := by
    by_contra hre
    rw [Bool.not_eq_true] at hre
    simp [validateDateFormat, hre] at h
  obtain ⟨a1, a2, a3, a4, b1, b2, c1, c2, rfl, h1, h2, h3, h4, h5, h6, h7, h8⟩ :=
    matchesDateFormatRegex_elim s hre
  have hsplit := splitOnHyphen_ten (48 + a1) (48 + a2) (48 + a3) (48 + a4)
    (48 + b1) (48 + b2) (48 + c1) (48 + c2)
    (by omega) (by omega) (by omega) (by omega) (by omega) (by omega) (by omega) (by omega)
  have hg0 : ([[48 + a1, 48 + a2, 48 + a3, 48 + a4], [48 + b1, 48 + b2],
      [48 + c1, 48 + c2]] : List JsString).getD 0 [] =
      [48 + a1, 48 + a2, 48 + a3, 48 + a4] := rfl
  have hg1 : ([[48 + a1, 48 + a2, 48 + a3, 48 + a4], [48 + b1, 48 + b2],
      [48 + c1, 48 + c2]] : List JsString).getD 1 [] = [48 + b1, 48 + b2] := rfl
  have hg2 : ([[48 + a1, 48 + a2, 48 + a3, 48 + a4], [48 + b1, 48 + b2],
      [48 + c1, 48 + c2]] : List JsString).getD 2 [] = [48 + c1, 48 + c2] := rfl
  simp [validateDateFormat, hre, hsplit, hg0, hg1, hg2, digitsToNat_four_val,
    digitsToNat_two_val] at h
  refine ⟨a1, a2, a3, a4, b1, b2, c1, c2, rfl, h1, h2, h3, h4, h5, h6, h7, h8, ?_⟩
  by_cases hmonth : 10 * (b1 : Int) + b2 < 1 ∨ 12 < 10 * (b1 : Int) + b2
  · rw [if_pos hmonth] at h; simp at h
  rw [if_neg hmonth] at h
  by_cases hday : 10 * (c1 : Int) + c2 < 1 ∨
      jsGetDate (jsNewDateDay (1000 * (a1 : Int) + 100 * a2 + 10 * a3 + a4)
        (10 * (b1 : Int) + b2) 0) < 10 * (c1 : Int) + c2
  · rw [if_pos hday] at h; simp at h
  rw [if_neg hday] at h
  by_cases hround : jsGetFullYear (jsNewDateDay (1000 * (a1 : Int) + 100 * a2 + 10 * a3 + a4)
        (10 * (b1 : Int) + b2 - 1) (10 * (c1 : Int) + c2)) ≠
        1000 * (a1 : Int) + 100 * a2 + 10 * a3 + a4 ∨
      jsGetMonth (jsNewDateDay (1000 * (a1 : Int) + 100 * a2 + 10 * a3 + a4)
        (10 * (b1 : Int) + b2 - 1) (10 * (c1 : Int) + c2)) ≠
        10 * (b1 : Int) + b2 - 1 ∨
      jsGetDate (jsNewDateDay (1000 * (a1 : Int) + 100 * a2 + 10 * a3 + a4)
        (10 * (b1 : Int) + b2 - 1) (10 * (c1 : Int) + c2)) ≠
        10 * (c1 : Int) + c2
  · rw [if_pos hround] at h; simp at h
  push_neg at hmonth hday hround
  obtain ⟨hr1, hr2, hr3⟩ := hround
  exact ⟨by omega, by omega, by omega, by omega, hr1, hr2, hr3⟩

/-- On a validated string, `parseLocalDate` returns
`new Date(year, month - 1, day)`. -/
theorem parseLocalDate_of_valid (s : JsString) (h : validateDateFormat s = none)
    (a1 a2 a3 a4 b1 b2 c1 c2 : Nat)
    (hs : s = [48 + a1, 48 + a2, 48 + a3, 48 + a4, 45, 48 + b1, 48 + b2, 45, 48 + c1, 48 + c2]) :
    parseLocalDate s = .ok (jsNewDateDay (1000 * (a1 : Int) + 100 * a2 + 10 * a3 + a4)
      (10 * (b1 : Int) + b2 - 1) (10 * (c1 : Int) + c2)) := by
  subst hs
  have hsplit := splitOnHyphen_ten (48 + a1) (48 + a2) (48 + a3) (48 + a4)
    (48 + b1) (48 + b2) (48 + c1) (48 + c2)
    (by omega) (by omega) (by omega) (by omega) (by omega) (by omega) (by omega) (by omega)
  have hg0 : ([[48 + a1, 48 + a2, 48 + a3, 48 + a4], [48 + b1, 48 + b2],
      [48 + c1, 48 + c2]] : List JsString).getD 0 [] =
      [48 + a1, 48 + a2, 48 + a3, 48 + a4] := rfl
  have hg1 : ([[48 + a1, 48 + a2, 48 + a3, 48 + a4], [48 + b1, 48 + b2],
      [48 + c1, 48 + c2]] : List JsString).getD 1 [] = [48 + b1, 48 + b2] := rfl
  have hg2 : ([[48 + a1, 48 + a2, 48 + a3, 48 + a4], [48 + b1, 48 + b2],
      [48 + c1, 48 + c2]] : List JsString).getD 2 [] = [48 + c1, 48 + c2] := rfl
  simp [parseLocalDate, h, hsplit, hg0, hg1, hg2, digitsToNat_four_val, digitsToNat_two_val]

/-- Padding the decimal digits of a number below 100 yields exactly its two
decimal digits. -/
theorem padStart2_natToDigits (n : Nat) (h1 : 1 ≤ n) (h2 : n < 100) :
    padStart2 (natToDigits n) = [48 + n / 10, 48 + n % 10] := by
  by_cases h : n < 10
  · rw [natToDigits_one n h]
    have e1 : n / 10 = 0 := by omega
    have e2 : n % 10 = n := by omega
    rw [e1, e2]
    rfl
  · rw [natToDigits_two n (by omega) h2]
    rfl

/-- Formatting the date parsed from a validated string whose year does not
start with the digit 0 reproduces the string (the `formatLocalDate` /
`parseLocalDate` round-trip). -/
theorem formatLocalDate_of_valid (s : JsString) (z : Int)
    (h : validateDateFormat s = none) (hz : parseLocalDate s = .ok z)
    (hy : 1000 ≤ jsGetFullYear z) :
    formatLocalDate z = s := by
  obtain ⟨a1, a2, a3, a4, b1, b2, c1, c2, hs, h1, h2, h3, h4, h5, h6, h7, h8,
    hm1, hm2, hd1, hdle, hry, hrm, hrd⟩ := validateDateFormat_none_elim s h
  have hp := parseLocalDate_of_valid s h a1 a2 a3 a4 b1 b2 c1 c2 hs
  rw [hz] at hp
  have hzeq : z = jsNewDateDay (1000 * (a1 : Int) + 100 * a2 + 10 * a3 + a4)
      (10 * (b1 : Int) + b2 - 1) (10 * (c1 : Int) + c2) := by
    exact Except.ok.inj hp
  subst hzeq
  rw [hry] at hy
  rw [formatLocalDate, hry, hrm, hrd]
  have hyn : 1000 * (a1 : Int) + 100 * a2 + 10 * a3 + a4 =
      ((1000 * a1 + 100 * a2 + 10 * a3 + a4 : Nat) : Int) := by push_cast; ring
  have hmn : 10 * (b1 : Int) + b2 - 1 + 1 = ((10 * b1 + b2 : Nat) : Int) := by push_cast; ring
  have hdn : 10 * (c1 : Int) + c2 = ((10 * c1 + c2 : Nat) : Int) := by push_cast; ring
  rw [hyn, hmn, hdn, intToString_ofNat, intToString_ofNat, intToString_ofNat]
  have hy1000 : 1000 ≤ 1000 * a1 + 100 * a2 + 10 * a3 + a4 := by
    rw [hyn] at hy
    exact_mod_cast hy
  rw [natToDigits_four (1000 * a1 + 100 * a2 + 10 * a3 + a4) hy1000 (by omega)]
  rw [padStart2_natToDigits (10 * b1 + b2) (by exact_mod_cast hm1) (by omega)]
  rw [padStart2_natToDigits (10 * c1 + c2) (by exact_mod_cast hd1) (by omega)]
  rw [hs]
  simp only [List.cons_append, List.nil_append, List.cons.injEq, and_true, true_and]
  omega

/-- The formatted string of a date with a four-digit year has the
`dddd-dd-dd` shape, with the decimal digits of its calendar fields. -/
theorem formatLocalDate_shape (z : Int) (h1 : 1000 ≤ jsGetFullYear z)
    (h2 : jsGetFullYear z ≤ 9999) :
    ∃ yn mn dn : Nat,
      jsGetFullYear z = (yn : Int) ∧ jsGetMonth z + 1 = (mn : Int) ∧
      jsGetDate z = (dn : Int) ∧
      1000 ≤ yn ∧ yn ≤ 9999 ∧ 1 ≤ mn ∧ mn ≤ 12 ∧ 1 ≤ dn ∧ dn ≤ 31 ∧
      formatLocalDate z =
        [48 + yn / 1000, 48 + yn / 100 % 10, 48 + yn / 10 % 10, 48 + yn % 10, 45,
         48 + mn / 10, 48 + mn % 10, 45, 48 + dn / 10, 48 + dn % 10] := by
  obtain ⟨hz, hm1, hm2, hd1, hd2⟩ := makeDayCivil_jsGet z
  obtain ⟨yn, hyn⟩ : ∃ yn : Nat, jsGetFullYear z = (yn : Int) :=
    ⟨(jsGetFullYear z).toNat, by omega⟩
  obtain ⟨mn, hmn⟩ : ∃ mn : Nat, jsGetMonth z + 1 = (mn : Int) :=
    ⟨(jsGetMonth z + 1).toNat, by omega⟩
  obtain ⟨dn, hdn⟩ : ∃ dn : Nat, jsGetDate z = (dn : Int) :=
    ⟨(jsGetDate z).toNat, by omega⟩
  have hdim : daysInMonth (isLeapYear (jsGetFullYear z)) (jsGetMonth z + 1) ≤ 31 := by
    obtain ⟨mk, hmk⟩ : ∃ mk : Nat, jsGetMonth z + 1 = (mk : Int) + 1 :=
      ⟨(jsGetMonth z).toNat, by omega⟩
    rw [hmk]
    exact (daysInMonth_bounds (isLeapYear (jsGetFullYear z)) mk (by omega)).2
  refine ⟨yn, mn, dn, hyn, hmn, hdn, by omega, by omega, by omega, by omega,
    by omega, by omega, ?_⟩
  rw [formatLocalDate, hyn, hmn, hdn, intToString_ofNat, intToString_ofNat,
    intToString_ofNat]
  rw [natToDigits_four yn (by omega) (by omega)]
  rw [padStart2_natToDigits mn (by omega) (by omega)]
  rw [padStart2_natToDigits dn (by omega) (by omega)]
  rfl

/-- Parsing a formatted four-digit-year date returns the original date
(the `parseLocalDate` / `formatLocalDate` round-trip). -/
theorem parse_formatLocalDate (z : Int) (h1 : 1000 ≤ jsGetFullYear z)
    (h2 : jsGetFullYear z ≤ 9999) :
    validateDateFormat (formatLocalDate z) = none ∧
    parseLocalDate (formatLocalDate z) = .ok z := by
  obtain ⟨hz, hm1, hm2, hd1, hd2⟩ := makeDayCivil_jsGet z
  obtain ⟨yn, mn, dn, hyn, hmn, hdn, hy1, hy2, hmn1, hmn2, hdn1, hdn2, hfmt⟩ :=
    formatLocalDate_shape z h1 h2
  have hsplit := splitOnHyphen_ten (48 + yn / 1000) (48 + yn / 100 % 10)
    (48 + yn / 10 % 10) (48 + yn % 10) (48 + mn / 10) (48 + mn % 10)
    (48 + dn / 10) (48 + dn % 10)
    (by omega) (by omega) (by omega) (by omega) (by omega) (by omega) (by omega) (by omega)
  have hre : matchesDateFormatRegex [48 + yn / 1000, 48 + yn / 100 % 10, 48 + yn / 10 % 10,
      48 + yn % 10, 45, 48 + mn / 10, 48 + mn % 10, 45, 48 + dn / 10, 48 + dn % 10] = true := by
    simp [matchesDateFormatRegex, isDigitCode]
    omega
  have hg0 : ([[48 + yn / 1000, 48 + yn / 100 % 10, 48 + yn / 10 % 10, 48 + yn % 10],
      [48 + mn / 10, 48 + mn % 10], [48 + dn / 10, 48 + dn % 10]] : List JsString).getD 0 [] =
      [48 + yn / 1000, 48 + yn / 100 % 10, 48 + yn / 10 % 10, 48 + yn % 10] := rfl
  have hg1 : ([[48 + yn / 1000, 48 + yn / 100 % 10, 48 + yn / 10 % 10, 48 + yn % 10],
      [48 + mn / 10, 48 + mn % 10], [48 + dn / 10, 48 + dn % 10]] : List JsString).getD 1 [] =
      [48 + mn / 10, 48 + mn % 10] := rfl
  have hg2 : ([[48 + yn / 1000, 48 + yn / 100 % 10, 48 + yn / 10 % 10, 48 + yn % 10],
      [48 + mn / 10, 48 + mn % 10], [48 + dn / 10, 48 + dn % 10]] : List JsString).getD 2 [] =
      [48 + dn / 10, 48 + dn % 10] := rfl
  have hyval : (1000 * (yn / 1000) + 100 * (yn / 100 % 10) + 10 * (yn / 10 % 10) + yn % 10) = yn := by
    omega
  have hmval : (10 * (mn / 10) + mn % 10) = mn := by omega
  have hdval : (10 * (dn / 10) + dn % 10) = dn := by omega
  have hymd : jsNewDateDay (yn : Int) ((mn : Int) - 1) (dn : Int) = z := by
    rw [jsNewDateDay, if_neg (by omega)]
    have : makeDay (yn : Int) ((mn : Int) - 1) (dn : Int) =
        makeDayCivil (yn : Int) ((mn : Int) - 1 + 1) (dn : Int) :=
      makeDay_of_month_range _ _ _ (by omega) (by omega)
    rw [this]
    have e : (mn : Int) - 1 + 1 = (mn : Int) := by ring
    rw [e, ← hyn, ← hmn, ← hdn]
    exact hz
  have hmaxday : jsGetDate (jsNewDateDay (yn : Int) (mn : Int) 0) =
      daysInMonth (isLeapYear (yn : Int)) (mn : Int) := by
    exact jsNewDateDay_maxDay (yn : Int) (mn : Int) (by omega) (by omega) (by omega)
  have hvalid : validateDateFormat (formatLocalDate z) = none := by
    rw [hfmt]
    simp only [validateDateFormat, hre, hsplit, hg0, hg1, hg2, digitsToNat_four_val,
      digitsToNat_two_val, hyval, hmval, hdval]
    have hnm : ¬(mn = 0 ∨ 12 < mn) := by omega
    have hnd : ¬(dn = 0 ∨
        jsGetDate (jsNewDateDay (yn : Int) (mn : Int) 0) < (dn : Int)) := by
      push_neg
      refine ⟨by omega, ?_⟩
      rw [hmaxday, ← hyn, ← hmn, ← hdn]
      exact hd2
    have hnr : ¬(jsGetFullYear (jsNewDateDay (yn : Int) ((mn : Int) - 1) (dn : Int)) ≠ (yn : Int) ∨
        jsGetMonth (jsNewDateDay (yn : Int) ((mn : Int) - 1) (dn : Int)) ≠ (mn : Int) - 1 ∨
        jsGetDate (jsNewDateDay (yn : Int) ((mn : Int) - 1) (dn : Int)) ≠ (dn : Int)) := by
      push_neg
      exact ⟨by rw [hymd]; exact hyn, by rw [hymd]; omega, by rw [hymd]; exact hdn⟩
    simp [hnm, hnd, hnr]
  refine ⟨hvalid, ?_⟩
  have hp := parseLocalDate_of_valid (formatLocalDate z) hvalid
    (yn / 1000) (yn / 100 % 10) (yn / 10 % 10) (yn % 10) (mn / 10) (mn % 10)
    (dn / 10) (dn % 10) hfmt
  rw [hp]
  have e2 : (1000 * ((yn / 1000 : Nat) : Int) + 100 * ((yn / 100 % 10 : Nat) : Int) +
      10 * ((yn / 10 % 10 : Nat) : Int) + ((yn % 10 : Nat) : Int)) = (yn : Int) := by
    push_cast
    omega
  have e3 : (10 * ((mn / 10 : Nat) : Int) + ((mn % 10 : Nat) : Int) - 1) = (mn : Int) - 1 := by
    push_cast
    omega
  have e4 : (10 * ((dn / 10 : Nat) : Int) + ((dn % 10 : Nat) : Int)) = (dn : Int) := by
    push_cast
    omega
  rw [e2, e3, e4, hymd]

/-- Decidable equality for `Except`, so that concrete runs of the date
functions can be checked by `decide`. -/
instance {ε α : Type} [DecidableEq ε] [DecidableEq α] : DecidableEq (Except ε α) := fun x y =>
  match x, y with
  | .ok a, .ok b => if h : a = b then .isTrue (by rw [h]) else .isFalse (by simp [h])
  | .error a, .error b => if h : a = b then .isTrue (by rw [h]) else .isFalse (by simp [h])
  | .ok _, .error _ => .isFalse (by simp)
  | .error _, .ok _ => .isFalse (by simp)

/-- A successful parse means validation succeeded. -/
theorem validateDateFormat_none_of_parse (s : JsString) (z : Int)
    (hz : parseLocalDate s = .ok z) : validateDateFormat s = none := by
  rw [parseLocalDate] at hz
  cases hv : validateDateFormat s with
  | some e => rw [hv] at hz; simp at hz
  | none => rfl

/-- On a parsed date, `addDays` shifts the epoch day and formats. -/
theorem addDays_of_valid (s : JsString) (z : Int) (hz : parseLocalDate s = .ok z)
    (days : Int) : addDays s days = .ok (formatLocalDate (z + days)) := by
  simp only [addDays, hz, jsSetDateDay_shift]

/-- Claim C8 (amended): on strings accepted by `validateDateFormat`,
`parseLocalDate` succeeds, and `formatLocalDate` maps the parsed date back to
the original string provided the year is at least 1000 (a year with a leading
zero is reformatted without the zero padding); on strings rejected by
`validateDateFormat`, `parseLocalDate` throws that validation error. -/
theorem parse_format_round_trip_on_validated :
    ∀ s : JsString,
      (validateDateFormat s = none →
        ∃ z, parseLocalDate s = .ok z ∧ (1000 ≤ jsGetFullYear z → formatLocalDate z = s)) ∧
      (∀ e, validateDateFormat s = some e → parseLocalDate s = .error e) := by
  intro s
  constructor
  · intro h
    obtain ⟨a1, a2, a3, a4, b1, b2, c1, c2, hs, -⟩ := validateDateFormat_none_elim s h
    have hp := parseLocalDate_of_valid s h a1 a2 a3 a4 b1 b2 c1 c2 hs
    exact ⟨_, hp, fun hy => formatLocalDate_of_valid s _ h hp hy⟩
  · intro e he
    rw [parseLocalDate, he]

/-- Claim C8 counterexample: the string `"0100-01-01"` passes
`validateDateFormat`, but formatting its parse yields `"100-01-01"`, not the
original string. -/
theorem parse_format_round_trip_counterexample :
    validateDateFormat (strCodes "0100-01-01") = none ∧
    (parseLocalDate (strCodes "0100-01-01")).map formatLocalDate ≠
      .ok (strCodes "0100-01-01") := by
  constructor <;> decide

/-- Claim C8 witness at `"2025-01-13"`. -/
theorem parse_format_round_trip_witness :
    ∃ z, parseLocalDate (strCodes "2025-01-13") = .ok z ∧
      (1000 ≤ jsGetFullYear z → formatLocalDate z = strCodes "2025-01-13") :=
  (parse_format_round_trip_on_validated (strCodes "2025-01-13")).1 (by decide)

/-- Claim C7 (amended): `addDays s 0 = s` for parsed strings whose year is at
least 1000, and `addDays (addDays s a) b = addDays s (a + b)` whenever the
intermediate date stays within four-digit years; day arithmetic carries across
month and year boundaries because the underlying shift acts on epoch days. -/
theorem addDays_zero_and_composition :
    ∀ (s : JsString) (z a b : Int),
      parseLocalDate s = .ok z →
      (1000 ≤ jsGetFullYear z → addDays s 0 = .ok s) ∧
      (1000 ≤ jsGetFullYear (z + a) → jsGetFullYear (z + a) ≤ 9999 →
        ∃ t, addDays s a = .ok t ∧ addDays t b = addDays s (a + b)) := by
  intro s z a b hz
  have hv := validateDateFormat_none_of_parse s z hz
  constructor
  · intro hy
    rw [addDays_of_valid s z hz 0, add_zero, formatLocalDate_of_valid s z hv hz hy]
  · intro h1 h2
    obtain ⟨hv', hp'⟩ := parse_formatLocalDate (z + a) h1 h2
    refine ⟨formatLocalDate (z + a), addDays_of_valid s z hz a, ?_⟩
    rw [addDays_of_valid (formatLocalDate (z + a)) (z + a) hp' b,
      addDays_of_valid s z hz (a + b), add_assoc]

/-- Claim C7 counterexample: `addDays "0100-01-01" 0` is `"100-01-01"`, not
the input, and composition fails at `"1000-01-01"` with `a = -1`, `b = 1`
because the intermediate string `"999-12-31"` no longer validates. -/
theorem addDays_composition_counterexample :
    validateDateFormat (strCodes "0100-01-01") = none ∧
    addDays (strCodes "0100-01-01") 0 ≠ .ok (strCodes "0100-01-01") ∧
    validateDateFormat (strCodes "1000-01-01") = none ∧
    addDays (strCodes "1000-01-01") (-1) = .ok (strCodes "999-12-31") ∧
    addDays (strCodes "999-12-31") 1 = .error (.badFormat (strCodes "999-12-31")) ∧
    addDays (strCodes "1000-01-01") (-1 + 1) = .ok (strCodes "1000-01-01") := by
  refine ⟨by decide, by decide, by decide, by decide, by decide, by decide⟩

/-- Claim C7 witness at `"2025-12-29"` (epoch day 20451), crossing a year
boundary with `a = 6`, `b = 1`. -/
theorem addDays_zero_and_composition_witness :
    addDays (strCodes "2025-12-29") 0 = .ok (strCodes "2025-12-29") ∧
    (∃ t, addDays (strCodes "2025-12-29") 6 = .ok t ∧
      addDays t 1 = addDays (strCodes "2025-12-29") (6 + 1)) :=
  ⟨(addDays_zero_and_composition (strCodes "2025-12-29") 20451 6 1 (by decide)).1 (by decide),
   (addDays_zero_and_composition (strCodes "2025-12-29") 20451 6 1 (by decide)).2
     (by decide) (by decide)⟩

/-! ## Dates with a time of day (millisecond timestamps) -/

/-- Milliseconds per day (ECMA-262 `msPerDay`). -/
def msPerDay : Int := 86400000

/-- ECMA-262 `Day(t)`. -/
def jsTsDay (t : Int) : Int := t / msPerDay

/-- ECMA-262 `TimeWithinDay(t)`. -/
def jsTsTimeWithinDay (t : Int) : Int := t % msPerDay

/-- `getFullYear` of a timestamp. -/
def jsTsGetFullYear (t : Int) : Int := yearFromDay (jsTsDay t)

/-- `getMonth` of a timestamp (0-based). -/
def jsTsGetMonth (t : Int) : Int := jsGetMonth (jsTsDay t)

/-- `getDate` of a timestamp. -/
def jsTsGetDate (t : Int) : Int := jsGetDate (jsTsDay t)

/-- `Date.prototype.setDate(n)` on a timestamp: `MakeDay` of the current year
and month with day `n`, keeping the time within the day. -/
def jsTsSetDate (t n : Int) : Int :=
  makeDay (jsTsGetFullYear t) (jsTsGetMonth t) n * msPerDay + jsTsTimeWithinDay t

/-- `Date.prototype.setMonth(m)` on a timestamp: `MakeDay` of the current year
and day-of-month with month `m`, keeping the time within the day. -/
def jsTsSetMonth (t m : Int) : Int :=
  makeDay (jsTsGetFullYear t) m (jsTsGetDate t) * msPerDay + jsTsTimeWithinDay t

/-- `setDate(getDate() + n)` adds exactly `n` days of milliseconds. -/
theorem jsTsSetDate_add (t n : Int) :
    jsTsSetDate t (jsTsGetDate t + n) = t + n * msPerDay := by
  have hshift := jsSetDateDay_shift (jsTsDay t) n
  rw [jsSetDateDay] at hshift
  rw [jsTsSetDate, jsTsGetFullYear, jsTsGetMonth, jsTsGetDate, hshift,
    jsTsDay, jsTsTimeWithinDay, msPerDay] at *
  omega

/-- Length of month 12. -/
theorem daysInMonth_twelve (leap : Bool) : daysInMonth leap 12 = 31 := by
  cases leap <;> decide

/-- Moving to the next month advances the epoch day by the length of the
current month: between 28 and 31 days. -/
theorem makeDay_next_month (z : Int) :
    z + 28 ≤ makeDay (yearFromDay z) (jsGetMonth z + 1) (jsGetDate z) ∧
    makeDay (yearFromDay z) (jsGetMonth z + 1) (jsGetDate z) ≤ z + 31 := by
  obtain ⟨hz, hm1, hm2, hd1, hd2⟩ := makeDayCivil_jsGet z
  rcases eq_or_lt_of_le hm2 with h12 | h11
  · have hm0 : jsGetMonth z + 1 = 12 := h12
    rw [hm0, makeDay_twelve]
    simp only [makeDayCivil] at hz ⊢
    rw [dayFromYear_succ, daysInYear_eq]
    have hB1 : daysBeforeMonth (isLeapYear (yearFromDay z + 1)) 1 = 0 := by
      cases isLeapYear (yearFromDay z + 1) <;> decide
    have hB12 := daysBeforeMonth_twelve (isLeapYear (yearFromDay z))
    have h31 := daysInMonth_twelve (isLeapYear (yearFromDay z))
    simp only [jsGetFullYear] at hz hm0 hB12 h31 hd2 ⊢
    rw [hm0] at hz hd2
    rw [h31] at hd2
    omega
  · rw [makeDay_of_month_range (yearFromDay z) (jsGetMonth z + 1) (jsGetDate z)
      (by omega) (by omega)]
    obtain ⟨mn, hmn⟩ : ∃ mn : Nat, jsGetMonth z + 1 = (mn : Int) + 1 :=
      ⟨(jsGetMonth z).toNat, by omega⟩
    have hmn11 : mn < 11 := by omega
    have hsucc := daysBeforeMonth_succ (isLeapYear (jsGetFullYear z)) mn (by omega)
    have hbounds := daysInMonth_bounds (isLeapYear (jsGetFullYear z)) mn (by omega)
    rcases hsucc with hsucc | habs
    · simp only [makeDayCivil] at hz ⊢
      simp only [jsGetFullYear] at *
      rw [hmn] at hz hd2 ⊢
      omega
    · omega

/-- `setMonth(getMonth() + 1)` moves the timestamp forward by at least 28 and
at most 31 days. -/
theorem jsTsSetMonth_next (t : Int) :
    t + 28 * msPerDay ≤ jsTsSetMonth t (jsTsGetMonth t + 1) ∧
    jsTsSetMonth t (jsTsGetMonth t + 1) ≤ t + 31 * msPerDay := by
  obtain ⟨hlo, hhi⟩ := makeDay_next_month (jsTsDay t)
  rw [jsTsSetMonth, jsTsGetFullYear, jsTsGetMonth, jsTsGetDate, jsTsTimeWithinDay]
  rw [jsTsDay, msPerDay] at *
  omega

/-! ## Embedding of the invitation token lifecycle
(`src/app/(member)/(manager)/(admin)/invitations/_lib/actions.ts`) -/

/-- A row of the `invitation_tokens` table, with the fields the server actions
read.  `expiresAt` is non-nullable for rows handled by `acceptInvitationAction`
(the action compares it unconditionally). -/
structure InvitationToken where
  token : String
  isActive : Bool
  expiresAt : Int
  maxUses : Option Int
  usedCount : Int
  createdBy : String
  description : Option String
  deriving DecidableEq

/-- A row of the `users` table, as created by `acceptInvitationAction`. -/
structure User where
  lineUserId : String
  displayName : String
  pictureUrl : Option String
  role : String
  deriving DecidableEq

/-- The slice of database state the invitation actions read and write. -/
structure Db where
  invitationTokens : List InvitationToken
  users : List User
  deriving DecidableEq

/-- `ActionResult<T>` from `src/types/actions.ts`: a discriminated union of
`{success: true, data}` and `{success: false, error}`. -/
inductive ActionResult (α : Type) where
  | ok (data : α)
  | fail (error : String)
  deriving DecidableEq

/-- The `success` discriminant of an `ActionResult`. -/
def ActionResult.success {α : Type} : ActionResult α → Bool
  | .ok _ => true
  | .fail _ => false

/-- The authenticated user returned by `requireAuth` (from
`src/lib/auth/role-guard.ts`, which is not under `src/`); the actions read its
`id` and `role`. -/
structure AuthUser where
  id : String
  role : String

/-- Modelled from the spec: `invitationConfig.tokenPrefix` lives in
`src/lib/auth/invitations.ts`, which is not under `src/`.  The doc examples in
`actions.ts` show invitation tokens of the form `inv_abc123...`, so the prefix
is modelled as `"inv_"`; no claim depends on its exact value. -/
def invitationTokenPrefixVal : String := "inv_"

/-- `String.prototype.startsWith`. -/
def jsStartsWith (s p : String) : Bool :=
  p.data.isPrefixOf s.data

/-- Input of `acceptInvitationAction`.  The zod `acceptInvitationSchema` is in
`_lib/schemas.ts`, which is not under `src/`; it is modelled from the spec as
accepting every correctly typed input unchanged, which the Lean field types
already enforce. -/
structure AcceptInvitationInput where
  token : String
  lineUserId : String
  displayName : String
  pictureUrl : Option String

/-- The `where` clause of the atomic `updateMany` in `acceptInvitationAction`:
same token value, still active, not expired, and — when the previously fetched
row had a `maxUses` limit — strictly below that limit. -/
def acceptUpdateWhere (tok : String) (now : Int) (fetchedMaxUses : Option Int)
    (r : InvitationToken) : Bool :=
  r.token == tok && r.isActive && decide (now < r.expiresAt) &&
    (match fetchedMaxUses with
     | some m => decide (r.usedCount < m)
     | none => true)

/-- Number of rows the `updateMany` touches (its returned `count`). -/
def acceptUpdateCount (tok : String) (now : Int) (fetchedMaxUses : Option Int)
    (db : Db) : Nat :=
  db.invitationTokens.countP (acceptUpdateWhere tok now fetchedMaxUses)

/-- The `updateMany` itself: increment `usedCount` on every matching row. -/
def applyAcceptUpdate (tok : String) (now : Int) (fetchedMaxUses : Option Int)
    (db : Db) : Db :=
  { db with invitationTokens := db.invitationTokens.map (fun r =>
      if acceptUpdateWhere tok now fetchedMaxUses r then
        { r with usedCount := r.usedCount + 1 }
      else r) }

/-- `acceptInvitationAction` from `actions.ts`, as a state transformer on the
database slice.  `now` is the single `new Date()` the action takes; the falsy
check `!token` is the emptiness test; errors thrown by the ORM are not
modelled (the catch-all merely converts them to a failure result). -/
def acceptInvitationAction (input : AcceptInvitationInput) (db : Db) (now : Int) :
    ActionResult User × Db :=
  if input.token = "" then
    (.fail "招待トークンの形式が正しくありません。", db)
  else if ¬ jsStartsWith input.token invitationTokenPrefixVal then
    (.fail "招待トークンの形式が正しくありません。", db)
  else
    match db.invitationTokens.find? (fun r => r.token == input.token) with
    | none => (.fail "招待トークンが見つかりません。", db)
    | some invitationToken =>
      if ¬ invitationToken.isActive then
        (.fail "この招待トークンは無効化されています。", db)
      else if invitationToken.expiresAt ≤ now then
        (.fail "招待トークンの有効期限が切れています。", db)
      else if (match invitationToken.maxUses with
               | some m => decide (m ≤ invitationToken.usedCount)
               | none => false : Bool) then
        (.fail "招待トークンの使用回数上限に達しています。", db)
      else if db.users.any (fun u => u.lineUserId == input.lineUserId) then
        (.fail "このユーザーは既に登録されています。", db)
      else
        let db1 := applyAcceptUpdate input.token now invitationToken.maxUses db
        if acceptUpdateCount input.token now invitationToken.maxUses db = 0 then
          (.fail "招待トークンが使用できなくなりました。既に使用されたか、有効期限が切れた可能性があります。", db1)
        else
          let user : User := {
            lineUserId := input.lineUserId
            displayName := input.displayName
            pictureUrl := match input.pictureUrl with
              | some p => if p = "" then none else some p
              | none => none
            role := "MEMBER" }
          (.ok user, { db1 with users := db1.users ++ [user] })

/-- Input of `createInvitationAction`.  The zod `createInvitationSchema`
(`_lib/schemas.ts`, not under `src/`) is modelled from the spec as accepting
every correctly typed input unchanged; the optional `expiresAt` ISO datetime
string is modelled as the millisecond timestamp `new Date(validated.expiresAt)`
resolves to. -/
structure CreateInvitationInput where
  description : Option String
  expiresAt : Option Int

/-- `DEFAULT_INVITATION_EXPIRY_DAYS` from `actions.ts`. -/
def DEFAULT_INVITATION_EXPIRY_DAYS : Int := 7

/-- Modelled from the spec: `createInvitationToken` lives in
`src/lib/auth/invitations.ts`, which is not under `src/`.  Per the spec's
single-active-token replacement and the call-site comment in `actions.ts`
("existing active invitations are deactivated automatically"), it deactivates
every active invitation token and inserts a fresh active token with
`usedCount` 0.  The randomly generated token value is passed in as
`newTokenValue`; the spec does not fix `maxUses` for new tokens, so it is
modelled as null (no claim depends on it). -/
def createInvitationToken (createdBy : String) (description : Option String)
    (expiresAt : Int) (newTokenValue : String) (db : Db) : InvitationToken × Db :=
  let newTok : InvitationToken := {
    token := newTokenValue
    isActive := true
    expiresAt := expiresAt
    maxUses := none
    usedCount := 0
    createdBy := createdBy
    description := description }
  (newTok,
   { db with invitationTokens :=
       (db.invitationTokens.map fun r =>
         if r.isActive then { r with isActive := false } else r) ++ [newTok] })

/-- Modelled from the spec: `generateInvitationUrl` (not under `src/`) builds
the invitation URL from the token and base URL; no claim depends on its
shape. -/
def generateInvitationUrl (token baseUrl : String) : String :=
  baseUrl ++ "/invite/" ++ token

/-- The expiry `createInvitationAction` resolves: the supplied instant, or
`setDate(getDate() + DEFAULT_INVITATION_EXPIRY_DAYS)` of the current time when
omitted. -/
def createExpiryResolved (input : CreateInvitationInput) (now : Int) : Int :=
  match input.expiresAt with
  | some e => e
  | none => jsTsSetDate now (jsTsGetDate now + DEFAULT_INVITATION_EXPIRY_DAYS)

/-- `createInvitationAction` from `actions.ts`.  `user` is the authenticated
user `requireAuth` returns; `now` is the wall-clock time (the action calls
`new Date()` three times in direct succession, modelled as one instant);
`newTokenValue` is the random token `createInvitationToken` generates. -/
def createInvitationAction (user : AuthUser) (input : CreateInvitationInput)
    (newTokenValue : String) (db : Db) (now : Int) :
    ActionResult (String × String) × Db :=
  if user.role ≠ "ADMIN" ∧ user.role ≠ "MANAGER" then
    (.fail "権限が不足しています。管理者またはマネージャーロールが必要です。", db)
  else
    let expiresAt := createExpiryResolved input now
    if expiresAt ≤ now then
      (.fail "有効期限は未来の日時を指定してください。", db)
    else
      let maxExpiresAt := jsTsSetMonth now (jsTsGetMonth now + 1)
      if maxExpiresAt < expiresAt then
        (.fail "有効期限は1ヶ月以内で指定してください。", db)
      else
        let created := createInvitationToken user.id input.description expiresAt
          newTokenValue db
        (.ok (created.1.token, generateInvitationUrl created.1.token "http://localhost:3000"),
         created.2)

/-- Modelled from the spec: `deactivateInvitationToken` (not under `src/`)
marks the given invitation token inactive; the `deactivatedBy` audit field is
beyond the modelled row type. -/
def deactivateInvitationToken (token : String) (deactivatedBy : String) (db : Db) : Db :=
  { db with invitationTokens := db.invitationTokens.map (fun r =>
      if r.token == token then { r with isActive := false } else r) }

/-- `deleteInvitationAction` from `actions.ts`. -/
def deleteInvitationAction (user : AuthUser) (token : String) (db : Db) :
    ActionResult Unit × Db :=
  if user.role ≠ "ADMIN" ∧ user.role ≠ "MANAGER" then
    (.fail "権限が不足しています。管理者またはマネージャー権限が必要です。", db)
  else
    (.ok (), deactivateInvitationToken token user.id db)

/-! ## Embedding of `invitations/_lib/invitation-utils.ts` -/

/-- The fields of `InvitationTokenWithStats` (from `_lib/types.ts`, not under
`src/`) that the status utilities read; in this view `expiresAt` is nullable
and the components guard on it before comparing. -/
structure InvitationTokenWithStats where
  isActive : Bool
  expiresAt : Option Int

/-- `isInvitationExpired`: false when `expiresAt` is null (falsy), otherwise
whether the expiry instant is before `Date.now()`. -/
def isInvitationExpired (invitation : InvitationTokenWithStats) (now : Int) : Bool :=
  match invitation.expiresAt with
  | none => false
  | some e => decide (e < now)

/-- `isInvitationValid`: active and not expired. -/
def isInvitationValid (invitation : InvitationTokenWithStats) (now : Int) : Bool :=
  invitation.isActive && !(isInvitationExpired invitation now)

/-- `getInvitationStatusLabel`: `"無効"` when inactive, `"期限切れ"` when
expired, otherwise `"有効"`. -/
def getInvitationStatusLabel (invitation : InvitationTokenWithStats) (now : Int) : String :=
  if ¬ invitation.isActive then "無効"
  else if isInvitationExpired invitation now then "期限切れ"
  else "有効"

/-- Claim C10: the label is `"有効"` exactly when `isInvitationValid` holds, a
null `expiresAt` never counts as expired, and an active invitation without an
expiry is always labelled `"有効"`. -/
theorem invitation_status_label_spec :
    ∀ (invitation : InvitationTokenWithStats) (now : Int),
      (getInvitationStatusLabel invitation now = "有効" ↔
        isInvitationValid invitation now = true) ∧
      (invitation.expiresAt = none → isInvitationExpired invitation now = false) ∧
      (invitation.isActive = true → invitation.expiresAt = none →
        getInvitationStatusLabel invitation now = "有効") := by
  intro invitation now
  have hne1 : ("無効" : String) ≠ "有効" := by decide
  have hne2 : ("期限切れ" : String) ≠ "有効" := by decide
  obtain ⟨act, exp⟩ := invitation
  cases act <;> rcases exp with _ | e <;>
    simp_all [getInvitationStatusLabel, isInvitationValid, isInvitationExpired] <;>
    by_cases he : e < now <;> simp_all

/-- Claim C10 witness: an active invitation without an expiry date. -/
theorem invitation_status_label_spec_witness :
    getInvitationStatusLabel { isActive := true, expiresAt := none } 0 = "有効" :=
  (invitation_status_label_spec { isActive := true, expiresAt := none } 0).2.2 rfl rfl

/-! ### Branch equations of the invitation actions -/

/-- Failure of the role guard in `createInvitationAction`. -/
theorem createInvitationAction_eq_noRole (user : AuthUser) (input : CreateInvitationInput)
    (ntv : String) (db : Db) (now : Int)
    (h1 : user.role ≠ "ADMIN") (h2 : user.role ≠ "MANAGER") :
    createInvitationAction user input ntv db now =
      (.fail "権限が不足しています。管理者またはマネージャーロールが必要です。", db) := by
  simp [createInvitationAction, h1, h2]

/-- Failure of the past-expiry check in `createInvitationAction`. -/
theorem createInvitationAction_eq_pastExpiry (user : AuthUser)
    (input : CreateInvitationInput) (ntv : String) (db : Db) (now : Int)
    (h1 : ¬(user.role ≠ "ADMIN" ∧ user.role ≠ "MANAGER"))
    (h2 : createExpiryResolved input now ≤ now) :
    createInvitationAction user input ntv db now =
      (.fail "有効期限は未来の日時を指定してください。", db) := by
  simp [createInvitationAction, h1, h2]

/-- Failure of the one-month-cap check in `createInvitationAction`. -/
theorem createInvitationAction_eq_farExpiry (user : AuthUser)
    (input : CreateInvitationInput) (ntv : String) (db : Db) (now : Int)
    (h1 : ¬(user.role ≠ "ADMIN" ∧ user.role ≠ "MANAGER"))
    (h2 : ¬(createExpiryResolved input now ≤ now))
    (h3 : jsTsSetMonth now (jsTsGetMonth now + 1) < createExpiryResolved input now) :
    createInvitationAction user input ntv db now =
      (.fail "有効期限は1ヶ月以内で指定してください。", db) := by
  simp [createInvitationAction, h1, h2, h3]

/-- The success branch of `createInvitationAction`. -/
theorem createInvitationAction_eq_success (user : AuthUser)
    (input : CreateInvitationInput) (ntv : String) (db : Db) (now : Int)
    (h1 : ¬(user.role ≠ "ADMIN" ∧ user.role ≠ "MANAGER"))
    (h2 : ¬(createExpiryResolved input now ≤ now))
    (h3 : ¬(jsTsSetMonth now (jsTsGetMonth now + 1) < createExpiryResolved input now)) :
    createInvitationAction user input ntv db now =
      (.ok ((createInvitationToken user.id input.description
              (createExpiryResolved input now) ntv db).1.token,
            generateInvitationUrl (createInvitationToken user.id input.description
              (createExpiryResolved input now) ntv db).1.token "http://localhost:3000"),
       (createInvitationToken user.id input.description
         (createExpiryResolved input now) ntv db).2) := by
  simp [createInvitationAction, h1, h2, h3]

/-- The `acceptInvitationAction` branch for an empty (falsy) token. -/
theorem acceptInvitationAction_eq_empty (input : AcceptInvitationInput) (db : Db)
    (now : Int) (h : input.token = "") :
    acceptInvitationAction input db now =
      (.fail "招待トークンの形式が正しくありません。", db) := by
  simp [acceptInvitationAction, h]

/-- The `acceptInvitationAction` branch for a token without the invitation
prefix. -/
theorem acceptInvitationAction_eq_noPrefix (input : AcceptInvitationInput) (db : Db)
    (now : Int) (h1 : input.token ≠ "")
    (h2 : ¬ jsStartsWith input.token invitationTokenPrefixVal) :
    acceptInvitationAction input db now =
      (.fail "招待トークンの形式が正しくありません。", db) := by
  simp [acceptInvitationAction, h1, h2]

/-- The `acceptInvitationAction` branch when no row has the token value. -/
theorem acceptInvitationAction_eq_notFound (input : AcceptInvitationInput) (db : Db)
    (now : Int) (h1 : input.token ≠ "")
    (h2 : jsStartsWith input.token invitationTokenPrefixVal)
    (h3 : db.invitationTokens.find? (fun r => r.token == input.token) = none) :
    acceptInvitationAction input db now = (.fail "招待トークンが見つかりません。", db) := by
  simp [acceptInvitationAction, h1, h2, h3]

/-- The `acceptInvitationAction` branch for a deactivated token. -/
theorem acceptInvitationAction_eq_inactive (input : AcceptInvitationInput) (db : Db)
    (now : Int) (tok : InvitationToken) (h1 : input.token ≠ "")
    (h2 : jsStartsWith input.token invitationTokenPrefixVal)
    (h3 : db.invitationTokens.find? (fun r => r.token == input.token) = some tok)
    (h4 : ¬ tok.isActive) :
    acceptInvitationAction input db now =
      (.fail "この招待トークンは無効化されています。", db) := by
  simp [acceptInvitationAction, h1, h2, h3, h4]

/-- The `acceptInvitationAction` branch for an expired token. -/
theorem acceptInvitationAction_eq_expired (input : AcceptInvitationInput) (db : Db)
    (now : Int) (tok : InvitationToken) (h1 : input.token ≠ "")
    (h2 : jsStartsWith input.token invitationTokenPrefixVal)
    (h3 : db.invitationTokens.find? (fun r => r.token == input.token) = some tok)
    (h4 : tok.isActive) (h5 : tok.expiresAt ≤ now) :
    acceptInvitationAction input db now =
      (.fail "招待トークンの有効期限が切れています。", db) := by
  simp [acceptInvitationAction, h1, h2, h3, h4, h5]

/-- The `acceptInvitationAction` branch for a token at its usage limit. -/
theorem acceptInvitationAction_eq_maxed (input : AcceptInvitationInput) (db : Db)
    (now : Int) (tok : InvitationToken) (m : Int) (h1 : input.token ≠ "")
    (h2 : jsStartsWith input.token invitationTokenPrefixVal)
    (h3 : db.invitationTokens.find? (fun r => r.token == input.token) = some tok)
    (h4 : tok.isActive) (h5 : ¬ tok.expiresAt ≤ now)
    (h6 : tok.maxUses = some m) (h7 : m ≤ tok.usedCount) :
    acceptInvitationAction input db now =
      (.fail "招待トークンの使用回数上限に達しています。", db) := by
  simp [acceptInvitationAction, h1, h2, h3, h4, h5, h6, h7]

/-- The `acceptInvitationAction` branch for an already registered LINE user. -/
theorem acceptInvitationAction_eq_existingUser (input : AcceptInvitationInput) (db : Db)
    (now : Int) (tok : InvitationToken) (h1 : input.token ≠ "")
    (h2 : jsStartsWith input.token invitationTokenPrefixVal)
    (h3 : db.invitationTokens.find? (fun r => r.token == input.token) = some tok)
    (h4 : tok.isActive) (h5 : ¬ tok.expiresAt ≤ now)
    (h6 : ∀ m, tok.maxUses = some m → tok.usedCount < m)
    (h7 : db.users.any (fun u => u.lineUserId == input.lineUserId)) :
    acceptInvitationAction input db now =
      (.fail "このユーザーは既に登録されています。", db) := by
  cases hm : tok.maxUses with
  | none => simp [acceptInvitationAction, h1, h2, h3, h4, h5, hm, h7]
  | some m =>
      have hlt : ¬ m ≤ tok.usedCount := by have := h6 m hm; omega
      simp [acceptInvitationAction, h1, h2, h3, h4, h5, hm, h7, hlt]

/-- The `acceptInvitationAction` branch when the conditional update matched
zero rows. -/
theorem acceptInvitationAction_eq_zeroCount (input : AcceptInvitationInput) (db : Db)
    (now : Int) (tok : InvitationToken) (h1 : input.token ≠ "")
    (h2 : jsStartsWith input.token invitationTokenPrefixVal)
    (h3 : db.invitationTokens.find? (fun r => r.token == input.token) = some tok)
    (h4 : tok.isActive) (h5 : ¬ tok.expiresAt ≤ now)
    (h6 : ∀ m, tok.maxUses = some m → tok.usedCount < m)
    (h7 : ¬ db.users.any (fun u => u.lineUserId == input.lineUserId))
    (h8 : acceptUpdateCount input.token now tok.maxUses db = 0) :
    acceptInvitationAction input db now =
      (.fail "招待トークンが使用できなくなりました。既に使用されたか、有効期限が切れた可能性があります。",
       applyAcceptUpdate input.token now tok.maxUses db) := by
  cases hm : tok.maxUses with
  | none =>
      rw [hm] at h8
      simp [acceptInvitationAction, h1, h2, h3, h4, h5, hm, h7, h8]
  | some m =>
      have hlt : ¬ m ≤ tok.usedCount := by have := h6 m hm; omega
      rw [hm] at h8
      simp [acceptInvitationAction, h1, h2, h3, h4, h5, hm, h7, h8, hlt]

/-- The success branch of `acceptInvitationAction`: the guarded update matched,
`usedCount` is incremented atomically and the user row is inserted. -/
theorem acceptInvitationAction_eq_success (input : AcceptInvitationInput) (db : Db)
    (now : Int) (tok : InvitationToken) (h1 : input.token ≠ "")
    (h2 : jsStartsWith input.token invitationTokenPrefixVal)
    (h3 : db.invitationTokens.find? (fun r => r.token == input.token) = some tok)
    (h4 : tok.isActive) (h5 : ¬ tok.expiresAt ≤ now)
    (h6 : ∀ m, tok.maxUses = some m → tok.usedCount < m)
    (h7 : ¬ db.users.any (fun u => u.lineUserId == input.lineUserId))
    (h8 : acceptUpdateCount input.token now tok.maxUses db ≠ 0) :
    acceptInvitationAction input db now =
      (.ok { lineUserId := input.lineUserId
             displayName := input.displayName
             pictureUrl := match input.pictureUrl with
               | some p => if p = "" then none else some p
               | none => none
             role := "MEMBER" },
       { applyAcceptUpdate input.token now tok.maxUses db with
         users := (applyAcceptUpdate input.token now tok.maxUses db).users ++
           [{ lineUserId := input.lineUserId
              displayName := input.displayName
              pictureUrl := match input.pictureUrl with
                | some p => if p = "" then none else some p
                | none => none
              role := "MEMBER" }] }) := by
  cases hm : tok.maxUses with
  | none =>
      rw [hm] at h8
      simp [acceptInvitationAction, h1, h2, h3, h4, h5, hm, h7, h8]
  | some m =>
      have hlt : ¬ m ≤ tok.usedCount := by have := h6 m hm; omega
      rw [hm] at h8
      simp [acceptInvitationAction, h1, h2, h3, h4, h5, hm, h7, h8, hlt]

/-- Claim C5: for an authenticated user whose role is neither ADMIN nor
MANAGER, `createInvitationAction` and `deleteInvitationAction` both return a
failure result and leave the database unchanged. -/
theorem invitation_actions_require_privileged_role :
    ∀ (user : AuthUser) (input : CreateInvitationInput) (newTokenValue token : String)
      (db : Db) (now : Int),
      user.role ≠ "ADMIN" → user.role ≠ "MANAGER" →
      (createInvitationAction user input newTokenValue db now).1.success = false ∧
      (createInvitationAction user input newTokenValue db now).2 = db ∧
      (deleteInvitationAction user token db).1.success = false ∧
      (deleteInvitationAction user token db).2 = db := by
  intro user input ntv token db now h1 h2
  rw [createInvitationAction_eq_noRole user input ntv db now h1 h2]
  simp [deleteInvitationAction, h1, h2, ActionResult.success]

/-- Claim C5 witness: a MEMBER-role user changes nothing. -/
theorem invitation_actions_require_privileged_role_witness :
    (createInvitationAction ⟨"u1", "MEMBER"⟩ ⟨none, none⟩ "inv_new" ⟨[], []⟩ 0).1.success =
      false ∧
    (createInvitationAction ⟨"u1", "MEMBER"⟩ ⟨none, none⟩ "inv_new" ⟨[], []⟩ 0).2 =
      ⟨[], []⟩ ∧
    (deleteInvitationAction ⟨"u1", "MEMBER"⟩ "inv_old" ⟨[], []⟩).1.success = false ∧
    (deleteInvitationAction ⟨"u1", "MEMBER"⟩ "inv_old" ⟨[], []⟩).2 = ⟨[], []⟩ :=
  invitation_actions_require_privileged_role ⟨"u1", "MEMBER"⟩ ⟨none, none⟩ "inv_new"
    "inv_old" ⟨[], []⟩ 0 (by decide) (by decide)

/-- A deactivation pass leaves no active rows. -/
theorem countP_deactivated (l : List InvitationToken) :
    (l.map fun r => if r.isActive then { r with isActive := false } else r).countP
      (fun r => r.isActive) = 0 := by
  induction l with
  | nil => rfl
  | cons r l ih =>
      by_cases h : r.isActive <;>
        simp [List.countP_cons, h, ih]

/-- Claim C2: whenever `createInvitationAction` succeeds, every previously
active token has been deactivated and only the newly created token is active:
the resulting state has exactly one active invitation token. -/
theorem createInvitation_single_active :
    ∀ (user : AuthUser) (input : CreateInvitationInput) (newTokenValue : String)
      (db : Db) (now : Int),
      (createInvitationAction user input newTokenValue db now).1.success = true →
      ((createInvitationAction user input newTokenValue db now).2.invitationTokens.countP
        (fun r => r.isActive)) = 1 := by
  intro user input ntv db now h
  by_cases h1 : user.role ≠ "ADMIN" ∧ user.role ≠ "MANAGER"
  · rw [createInvitationAction_eq_noRole user input ntv db now h1.1 h1.2] at h
    simp [ActionResult.success] at h
  by_cases h2 : createExpiryResolved input now ≤ now
  · rw [createInvitationAction_eq_pastExpiry user input ntv db now h1 h2] at h
    simp [ActionResult.success] at h
  by_cases h3 : jsTsSetMonth now (jsTsGetMonth now + 1) < createExpiryResolved input now
  · rw [createInvitationAction_eq_farExpiry user input ntv db now h1 h2 h3] at h
    simp [ActionResult.success] at h
  rw [createInvitationAction_eq_success user input ntv db now h1 h2 h3]
  simp only [createInvitationToken]
  rw [List.countP_append, countP_deactivated]
  rfl

/-- Claim C2 witness: creating a token over a state with two active tokens. -/
theorem createInvitation_single_active_witness :
    ((createInvitationAction ⟨"u1", "ADMIN"⟩ ⟨none, some 1000⟩ "inv_new"
        ⟨[{ token := "inv_a", isActive := true, expiresAt := 5, maxUses := none,
            usedCount := 0, createdBy := "u0", description := none },
          { token := "inv_b", isActive := true, expiresAt := 9, maxUses := some 3,
            usedCount := 1, createdBy := "u0", description := none }], []⟩
        0).2.invitationTokens.countP (fun r => r.isActive)) = 1 :=
  createInvitation_single_active ⟨"u1", "ADMIN"⟩ ⟨none, some 1000⟩ "inv_new" _ 0 (by decide)

/-- Appending a singleton determines the last element. -/
theorem getLast?_append_singleton {α : Type} (l : List α) (a : α) :
    (l ++ [a]).getLast? = some a := by
  induction l with
  | nil => rfl
  | cons x l ih =>
      cases l with
      | nil => rfl
      | cons y l =>
          rw [List.cons_append, List.cons_append, List.getLast?_cons_cons]
          rw [List.cons_append] at ih
          exact ih

/-- Claim C6: with a privileged role, a supplied expiry that is not in the
future, or lies beyond `setMonth(getMonth() + 1)` of the current time, makes
`createInvitationAction` fail without touching the database; with the expiry
omitted, the action succeeds and the created token expires exactly 7 days
(in milliseconds) after the creation time. -/
theorem createInvitation_expiry_validation :
    ∀ (user : AuthUser) (input : CreateInvitationInput) (newTokenValue : String)
      (db : Db) (now : Int),
      (user.role = "ADMIN" ∨ user.role = "MANAGER") →
      (∀ e, input.expiresAt = some e →
        (e ≤ now ∨ jsTsSetMonth now (jsTsGetMonth now + 1) < e) →
        (createInvitationAction user input newTokenValue db now).1.success = false ∧
        (createInvitationAction user input newTokenValue db now).2 = db) ∧
      (input.expiresAt = none →
        (createInvitationAction user input newTokenValue db now).1.success = true ∧
        ∃ tok, (createInvitationAction user input newTokenValue db
            now).2.invitationTokens.getLast? = some tok ∧
          tok.expiresAt = now + 7 * msPerDay) := by
  intro user input ntv db now hrole
  have h1 : ¬(user.role ≠ "ADMIN" ∧ user.role ≠ "MANAGER") := by tauto
  constructor
  · intro e he hbad
    have hE : createExpiryResolved input now = e := by simp [createExpiryResolved, he]
    rcases hbad with hb | hb
    · rw [createInvitationAction_eq_pastExpiry user input ntv db now h1 (by rw [hE]; exact hb)]
      exact ⟨rfl, rfl⟩
    · by_cases h2 : createExpiryResolved input now ≤ now
      · rw [createInvitationAction_eq_pastExpiry user input ntv db now h1 h2]
        exact ⟨rfl, rfl⟩
      · rw [createInvitationAction_eq_farExpiry user input ntv db now h1 h2
          (by rw [hE]; exact hb)]
        exact ⟨rfl, rfl⟩
  · intro he
    have hE : createExpiryResolved input now = now + 7 * msPerDay := by
      rw [createExpiryResolved, he]
      exact jsTsSetDate_add now 7
    have hms : msPerDay = 86400000 := rfl
    have h2 : ¬ createExpiryResolved input now ≤ now := by rw [hE]; omega
    have h3 : ¬ jsTsSetMonth now (jsTsGetMonth now + 1) < createExpiryResolved input now := by
      have hnext := jsTsSetMonth_next now
      rw [hE]
      omega
    rw [createInvitationAction_eq_success user input ntv db now h1 h2 h3]
    refine ⟨rfl, ?_⟩
    simp only [createInvitationToken]
    exact ⟨_, getLast?_append_singleton _ _, hE⟩

/-- Claim C6 witness: a past expiry is rejected without state change; an
omitted expiry creates a token expiring in exactly 7 days. -/
theorem createInvitation_expiry_validation_witness :
    ((createInvitationAction ⟨"u1", "ADMIN"⟩ ⟨none, some 0⟩ "inv_n" ⟨[], []⟩ 0).1.success =
        false ∧
      (createInvitationAction ⟨"u1", "ADMIN"⟩ ⟨none, some 0⟩ "inv_n" ⟨[], []⟩ 0).2 =
        ⟨[], []⟩) ∧
    ((createInvitationAction ⟨"u1", "ADMIN"⟩ ⟨none, none⟩ "inv_n" ⟨[], []⟩ 0).1.success =
        true ∧
      ∃ tok, (createInvitationAction ⟨"u1", "ADMIN"⟩ ⟨none, none⟩ "inv_n"
          ⟨[], []⟩ 0).2.invitationTokens.getLast? = some tok ∧
        tok.expiresAt = 0 + 7 * msPerDay) :=
  ⟨(createInvitation_expiry_validation ⟨"u1", "ADMIN"⟩ ⟨none, some 0⟩ "inv_n" ⟨[], []⟩ 0
      (by decide)).1 0 rfl (Or.inl (by decide)),
   (createInvitation_expiry_validation ⟨"u1", "ADMIN"⟩ ⟨none, none⟩ "inv_n" ⟨[], []⟩ 0
      (by decide)).2 rfl⟩

/-- A zero-match `updateMany` leaves the database unchanged. -/
theorem applyAcceptUpdate_of_count_zero (tokv : String) (now : Int)
    (fetched : Option Int) (db : Db)
    (h : acceptUpdateCount tokv now fetched db = 0) :
    applyAcceptUpdate tokv now fetched db = db := by
  have hall : ∀ r ∈ db.invitationTokens, ¬ (acceptUpdateWhere tokv now fetched r = true) :=
    List.countP_eq_zero.mp h
  rw [applyAcceptUpdate]
  suffices h2 : ∀ l : List InvitationToken,
      (∀ r ∈ l, ¬ (acceptUpdateWhere tokv now fetched r = true)) →
      l.map (fun r => if acceptUpdateWhere tokv now fetched r then
        { r with usedCount := r.usedCount + 1 } else r) = l by
    rw [h2 db.invitationTokens hall]
  intro l hl
  induction l with
  | nil => rfl
  | cons r l ih =>
      rw [List.map_cons, if_neg (hl r (List.mem_cons_self r l)),
        ih (fun x hx => hl x (List.mem_cons_of_mem _ hx))]

/-- Dichotomy for `acceptInvitationAction`: either it fails and the database
is untouched, or all acceptance preconditions held, the conditional update
matched at least one row, and the result is the incremented state with the new
MEMBER user appended. -/
theorem acceptInvitationAction_cases :
    ∀ (input : AcceptInvitationInput) (db : Db) (now : Int),
      ((acceptInvitationAction input db now).1.success = false ∧
        (acceptInvitationAction input db now).2 = db) ∨
      ((acceptInvitationAction input db now).1.success = true ∧
        ∃ tok, input.token ≠ "" ∧
          jsStartsWith input.token invitationTokenPrefixVal = true ∧
          db.invitationTokens.find? (fun r => r.token == input.token) = some tok ∧
          tok.isActive = true ∧ now < tok.expiresAt ∧
          (∀ m, tok.maxUses = some m → tok.usedCount < m) ∧
          db.users.any (fun u => u.lineUserId == input.lineUserId) = false ∧
          acceptUpdateCount input.token now tok.maxUses db ≠ 0 ∧
          (acceptInvitationAction input db now).2 =
            { applyAcceptUpdate input.token now tok.maxUses db with
              users := (applyAcceptUpdate input.token now tok.maxUses db).users ++
                [{ lineUserId := input.lineUserId
                   displayName := input.displayName
                   pictureUrl := match input.pictureUrl with
                     | some p => if p = "" then none else some p
                     | none => none
                   role := "MEMBER" }] }) := by
  intro input db now
  by_cases c1 : input.token = ""
  · rw [acceptInvitationAction_eq_empty input db now c1]; exact Or.inl ⟨rfl, rfl⟩
  by_cases c2 : jsStartsWith input.token invitationTokenPrefixVal
  case neg => rw [acceptInvitationAction_eq_noPrefix input db now c1 c2]
              exact Or.inl ⟨rfl, rfl⟩
  cases hf : db.invitationTokens.find? (fun r => r.token == input.token) with
  | none => rw [acceptInvitationAction_eq_notFound input db now c1 c2 hf]
            exact Or.inl ⟨rfl, rfl⟩
  | some tok =>
    by_cases c4 : tok.isActive
    case neg => rw [acceptInvitationAction_eq_inactive input db now tok c1 c2 hf c4]
                exact Or.inl ⟨rfl, rfl⟩
    by_cases c5 : tok.expiresAt ≤ now
    · rw [acceptInvitationAction_eq_expired input db now tok c1 c2 hf c4 c5]
      exact Or.inl ⟨rfl, rfl⟩
    by_cases c6 : ∀ m, tok.maxUses = some m → tok.usedCount < m
    case neg =>
      push_neg at c6
      obtain ⟨m, hm, hle⟩ := c6
      rw [acceptInvitationAction_eq_maxed input db now tok m c1 c2 hf c4 c5 hm (by omega)]
      exact Or.inl ⟨rfl, rfl⟩
    by_cases c7 : db.users.any (fun u => u.lineUserId == input.lineUserId)
    · rw [acceptInvitationAction_eq_existingUser input db now tok c1 c2 hf c4 c5 c6 c7]
      exact Or.inl ⟨rfl, rfl⟩
    by_cases c8 : acceptUpdateCount input.token now tok.maxUses db = 0
    · rw [acceptInvitationAction_eq_zeroCount input db now tok c1 c2 hf c4 c5 c6 c7 c8]
      exact Or.inl ⟨rfl, applyAcceptUpdate_of_count_zero input.token now tok.maxUses db c8⟩
    · rw [acceptInvitationAction_eq_success input db now tok c1 c2 hf c4 c5 c6 c7 c8]
      refine Or.inr ⟨rfl, tok, c1, c2, rfl, c4, by omega, c6, by
        simpa using c7, c8, rfl⟩

/-- Claim C4: every listed acceptance precondition failure makes
`acceptInvitationAction` return a failure result and create no user: bad
prefix, unknown token, deactivated token, expired token, exhausted `maxUses`,
or an already registered LINE user. -/
theorem acceptInvitation_failure_conditions :
    ∀ (input : AcceptInvitationInput) (db : Db) (now : Int),
      (¬ jsStartsWith input.token invitationTokenPrefixVal →
        (acceptInvitationAction input db now).1.success = false ∧
        (acceptInvitationAction input db now).2.users = db.users) ∧
      (db.invitationTokens.find? (fun r => r.token == input.token) = none →
        (acceptInvitationAction input db now).1.success = false ∧
        (acceptInvitationAction input db now).2.users = db.users) ∧
      (∀ tok, db.invitationTokens.find? (fun r => r.token == input.token) = some tok →
        tok.isActive = false →
        (acceptInvitationAction input db now).1.success = false ∧
        (acceptInvitationAction input db now).2.users = db.users) ∧
      (∀ tok, db.invitationTokens.find? (fun r => r.token == input.token) = some tok →
        tok.expiresAt ≤ now →
        (acceptInvitationAction input db now).1.success = false ∧
        (acceptInvitationAction input db now).2.users = db.users) ∧
      (∀ tok m, db.invitationTokens.find? (fun r => r.token == input.token) = some tok →
        tok.maxUses = some m → m ≤ tok.usedCount →
        (acceptInvitationAction input db now).1.success = false ∧
        (acceptInvitationAction input db now).2.users = db.users) ∧
      (db.users.any (fun u => u.lineUserId == input.lineUserId) = true →
        (acceptInvitationAction input db now).1.success = false ∧
        (acceptInvitationAction input db now).2.users = db.users) := by
  intro input db now
  rcases acceptInvitationAction_cases input db now with ⟨hs, hdb⟩ |
    ⟨hs, tok', hne, hpre, hf', hact, hexp, hmax, hany, hcnt, hdb⟩
  · have hu : (acceptInvitationAction input db now).2.users = db.users := by rw [hdb]
    exact ⟨fun _ => ⟨hs, hu⟩, fun _ => ⟨hs, hu⟩, fun _ _ _ => ⟨hs, hu⟩,
      fun _ _ _ => ⟨hs, hu⟩, fun _ _ _ _ _ => ⟨hs, hu⟩, fun _ => ⟨hs, hu⟩⟩
  · refine ⟨fun hc => absurd hpre hc, fun hc => by rw [hc] at hf'; simp at hf',
      fun tok hfe hin => ?_, fun tok hfe hex => ?_, fun tok m hfe hm hle => ?_,
      fun hc => by rw [hc] at hany; simp at hany⟩
    · rw [hfe] at hf'
      obtain rfl : tok = tok' := Option.some.inj hf'
      rw [hin] at hact
      simp at hact
    · rw [hfe] at hf'
      obtain rfl : tok = tok' := Option.some.inj hf'
      omega
    · rw [hfe] at hf'
      obtain rfl : tok = tok' := Option.some.inj hf'
      have := hmax m hm
      omega

/-- Claim C4 witness: an expired token is rejected and no user is created. -/
theorem acceptInvitation_failure_conditions_witness :
    (acceptInvitationAction ⟨"inv_t", "L1", "Taro", none⟩
      ⟨[{ token := "inv_t", isActive := true, expiresAt := 5, maxUses := none,
          usedCount := 0, createdBy := "u0", description := none }], []⟩ 9).1.success =
      false ∧
    (acceptInvitationAction ⟨"inv_t", "L1", "Taro", none⟩
      ⟨[{ token := "inv_t", isActive := true, expiresAt := 5, maxUses := none,
          usedCount := 0, createdBy := "u0", description := none }], []⟩ 9).2.users = [] :=
  (acceptInvitation_failure_conditions ⟨"inv_t", "L1", "Taro", none⟩
    ⟨[{ token := "inv_t", isActive := true, expiresAt := 5, maxUses := none,
        usedCount := 0, createdBy := "u0", description := none }], []⟩ 9).2.2.2.1
    { token := "inv_t", isActive := true, expiresAt := 5, maxUses := none,
      usedCount := 0, createdBy := "u0", description := none } (by decide) (by decide)

/-- Unpacking a successful `updateMany` match: the row has the token value, is
active, unexpired, and below the fetched limit. -/
theorem acceptUpdateWhere_elim (tokv : String) (now : Int) (fetched : Option Int)
    (r : InvitationToken) (h : acceptUpdateWhere tokv now fetched r = true) :
    r.token = tokv ∧ r.isActive = true ∧ now < r.expiresAt ∧
      (∀ m, fetched = some m → r.usedCount < m) := by
  rw [acceptUpdateWhere.eq_def] at h
  simp only [Bool.and_eq_true, beq_iff_eq, decide_eq_true_eq] at h
  obtain ⟨⟨⟨h1, h2⟩, h3⟩, h4⟩ := h
  refine ⟨h1, h2, h3, fun m hm => ?_⟩
  rw [hm] at h4
  simpa using h4

/-- Claim C1: `usedCount` changes only through the single guarded update
(`isActive`, unexpired, strictly below `maxUses`); a zero-row match yields a
failure with no user created; in consequence `usedCount` can never exceed
`maxUses`, regardless of how many acceptances race.  The hypotheses state that
tokens are unique (the schema declares `token` unique — `findUnique` relies on
it) and that the bound held beforehand. -/
theorem acceptInvitation_atomic_usedCount :
    ∀ (input : AcceptInvitationInput) (db : Db) (now : Int),
      (∀ r1 ∈ db.invitationTokens, ∀ r2 ∈ db.invitationTokens,
        r1.token = r2.token → r1 = r2) →
      (∀ r ∈ db.invitationTokens, ∀ m, r.maxUses = some m → r.usedCount ≤ m) →
      (∀ i : Nat,
        (acceptInvitationAction input db now).2.invitationTokens[i]? =
          db.invitationTokens[i]? ∨
        ∃ r, db.invitationTokens[i]? = some r ∧ r.isActive = true ∧ now < r.expiresAt ∧
          (∀ m, r.maxUses = some m → r.usedCount < m) ∧
          (acceptInvitationAction input db now).2.invitationTokens[i]? =
            some { r with usedCount := r.usedCount + 1 }) ∧
      (∀ r ∈ (acceptInvitationAction input db now).2.invitationTokens,
        ∀ m, r.maxUses = some m → r.usedCount ≤ m) ∧
      (∀ tok, db.invitationTokens.find? (fun r => r.token == input.token) = some tok →
        acceptUpdateCount input.token now tok.maxUses db = 0 →
        (acceptInvitationAction input db now).1.success = false ∧
        (acceptInvitationAction input db now).2.users = db.users) := by
  intro input db now huniq hbound
  rcases acceptInvitationAction_cases input db now with ⟨hs, hdb⟩ |
    ⟨hs, tok', hne, hpre, hf', hact, hexp, hmax, hany, hcnt, hdb⟩
  · refine ⟨fun i => Or.inl (by rw [hdb]), ?_, fun tok hfe hz => ⟨hs, by rw [hdb]⟩⟩
    rw [hdb]
    exact hbound
  · have htok' : tok' ∈ db.invitationTokens := List.mem_of_find?_eq_some hf'
    have htokeq : tok'.token = input.token := by
      have := List.find?_some hf'
      simpa using this
    have htoks : (acceptInvitationAction input db now).2.invitationTokens =
        db.invitationTokens.map (fun r =>
          if acceptUpdateWhere input.token now tok'.maxUses r then
            { r with usedCount := r.usedCount + 1 }
          else r) := by
      rw [hdb]
      rfl
    refine ⟨fun i => ?_, fun r hr m hm => ?_, fun tok hfe hz => ?_⟩
    · rw [htoks, List.getElem?_map]
      cases hri : db.invitationTokens[i]? with
      | none => exact Or.inl rfl
      | some r =>
        have hrmem : r ∈ db.invitationTokens := by
          have := List.getElem?_eq_some_iff.mp hri
          obtain ⟨hlt, hget⟩ := this
          exact hget ▸ List.getElem_mem hlt
        by_cases hw : acceptUpdateWhere input.token now tok'.maxUses r = true
        · obtain ⟨hw1, hw2, hw3, hw4⟩ := acceptUpdateWhere_elim _ _ _ _ hw
          have hrt : r = tok' := huniq r hrmem tok' htok' (by rw [hw1, htokeq])
          refine Or.inr ⟨r, rfl, hw2, hw3, fun m hm => hw4 m (by rw [← hrt, hm]), ?_⟩
          simp [hw]
        · exact Or.inl (by simp [hw])
    · rw [htoks] at hr
      obtain ⟨r0, hr0mem, hr0eq⟩ := List.mem_map.mp hr
      by_cases hw : acceptUpdateWhere input.token now tok'.maxUses r0 = true
      · rw [if_pos hw] at hr0eq
        obtain ⟨hw1, hw2, hw3, hw4⟩ := acceptUpdateWhere_elim _ _ _ _ hw
        have hrt : r0 = tok' := huniq r0 hr0mem tok' htok' (by rw [hw1, htokeq])
        subst hr0eq
        simp only at hm
        have := hw4 m (by rw [← hrt]; exact hm)
        simp only
        omega
      · rw [if_neg hw] at hr0eq
        subst hr0eq
        exact hbound r0 hr0mem m hm
    · rw [hfe] at hf'
      obtain rfl : tok = tok' := Option.some.inj hf'
      exact absurd hz hcnt

/-- Sample state for the C1 witness: a one-use token already used once. -/
def sampleUsedToken : InvitationToken :=
  { token := "inv_t", isActive := true, expiresAt := 50, maxUses := some 1,
    usedCount := 1, createdBy := "u0", description := none }

/-- Claim C1 witness: a racing acceptance of an exhausted one-use token fails,
creates no user, and the count stays at its limit. -/
theorem acceptInvitation_atomic_usedCount_witness :
    ((acceptInvitationAction ⟨"inv_t", "L1", "Taro", none⟩
        ⟨[sampleUsedToken], []⟩ 9).1.success = false ∧
      (acceptInvitationAction ⟨"inv_t", "L1", "Taro", none⟩
        ⟨[sampleUsedToken], []⟩ 9).2.users = []) ∧
    (∀ r ∈ (acceptInvitationAction ⟨"inv_t", "L1", "Taro", none⟩
        ⟨[sampleUsedToken], []⟩ 9).2.invitationTokens,
      ∀ m, r.maxUses = some m → r.usedCount ≤ m) := by
  have h := acceptInvitation_atomic_usedCount ⟨"inv_t", "L1", "Taro", none⟩
    ⟨[sampleUsedToken], []⟩ 9 (by decide) (by decide)
  exact ⟨h.2.2 sampleUsedToken (by decide) (by decide), h.2.1⟩

/-! ## Embedding of `src/lib/auth/jwt.ts` over a model of the jose library -/

/-- A JSON value stored in a JWT claims set, as far as the payload validation
inspects it (`typeof` distinguishes exactly these shapes). -/
inductive JsValue where
  | vStr (s : String)
  | vNum (n : Int)
  | vBool (b : Bool)
  | vNull
  deriving DecidableEq

/-- Modelled from the spec: `jwtConfig.secret` comes from `src/lib/env.ts`,
which is not under `src/`; only its identity matters to the claims. -/
def jwtConfigSecret : String := "jwt-secret"

/-- Modelled from the spec: `jwtConfig.expiresIn` is `"48h"` (the source
comments `setExpirationTime(jwtConfig.expiresIn) // "48h"`), in seconds. -/
def jwtConfigExpiresInSeconds : Int := 48 * 60 * 60

/-- `JWT_ISSUER` from `jwt.ts`. -/
def JWT_ISSUER : String := "fuyugyo"

/-- `JWT_AUDIENCE` from `jwt.ts`. -/
def JWT_AUDIENCE : String := "fuyugyo-users"

/-- The `role` union of the exported `JwtPayload` type. -/
inductive Role where
  | ADMIN
  | MANAGER
  | MEMBER
  deriving DecidableEq

/-- The string a role serialises to in the JWT claims set. -/
def Role.toClaim : Role → String
  | .ADMIN => "ADMIN"
  | .MANAGER => "MANAGER"
  | .MEMBER => "MEMBER"

/-- The typed payload `generateJwt` accepts
(`Omit<JwtPayload, "iat" | "exp" | "iss" | "aud">`). -/
structure JwtPayloadInput where
  userId : String
  lineUserId : String
  displayName : String
  role : Role
  isActive : Bool

/-- Model of a string handed to `verifyJwt`: the empty string (the only falsy
one), a string that is not a structurally valid signed JWT, or a JWT signed
over a claims set with some secret.  The model assumes HS256 is sound:
verification succeeds exactly with the signing secret and recovers exactly the
signed claims. -/
inductive JoseToken where
  | emptyStr
  | malformed (s : String)
  | signed (claims : List (String × JsValue)) (secret : String)
  deriving DecidableEq

/-- JavaScript falsiness of the token string (`!token`). -/
def JoseToken.isFalsy : JoseToken → Bool
  | .emptyStr => true
  | _ => false

/-- The jose error codes `parseJwtError` dispatches on. -/
inductive JoseErrorCode where
  | jwtExpired
  | jwsSignatureVerificationFailed
  | jwtClaimValidationFailed
  | jwsInvalid
  deriving DecidableEq

/-- Claim lookup in a claims set (first binding wins, as in a JS object
literal read left to right with distinct keys). -/
def lookupClaim (claims : List (String × JsValue)) (k : String) : Option JsValue :=
  match claims.find? (fun c => c.1 == k) with
  | some c => some c.2
  | none => none

/-- Model of jose `jwtVerify(token, secret, { issuer, audience })`: signature
check, `iss` and `aud` claim validation, then `exp` against the clock in
seconds (jose throws `ERR_JWT_EXPIRED` when `exp <= now`). -/
def joseJwtVerify (token : JoseToken) (secret issuer audience : String)
    (nowSec : Int) : Except JoseErrorCode (List (String × JsValue)) :=
  match token with
  | .emptyStr => .error .jwsInvalid
  | .malformed _ => .error .jwsInvalid
  | .signed claims sec =>
    if sec ≠ secret then .error .jwsSignatureVerificationFailed
    else if lookupClaim claims "iss" ≠ some (.vStr issuer) then
      .error .jwtClaimValidationFailed
    else if lookupClaim claims "aud" ≠ some (.vStr audience) then
      .error .jwtClaimValidationFailed
    else match lookupClaim claims "exp" with
      | some (.vNum exp) => if exp ≤ nowSec then .error .jwtExpired else .ok claims
      | _ => .ok claims

/-- `generateJwt` from `jwt.ts`: sign the five payload fields plus
`setIssuedAt`, `setIssuer`, `setAudience`, `setExpirationTime("48h")` with the
configured secret. -/
def generateJwt (payload : JwtPayloadInput) (nowSec : Int) : JoseToken :=
  .signed
    [("userId", .vStr payload.userId),
     ("lineUserId", .vStr payload.lineUserId),
     ("displayName", .vStr payload.displayName),
     ("role", .vStr payload.role.toClaim),
     ("isActive", .vBool payload.isActive),
     ("iat", .vNum nowSec),
     ("iss", .vStr JWT_ISSUER),
     ("aud", .vStr JWT_AUDIENCE),
     ("exp", .vNum (nowSec + jwtConfigExpiresInSeconds))]
    jwtConfigSecret

/-- `parseJwtError` from `jwt.ts` (every modelled error is a jose error; the
default branch also covers `ERR_JWS_INVALID`). -/
def parseJwtError (e : JoseErrorCode) : String :=
  match e with
  | .jwtExpired => "Token has expired"
  | .jwsSignatureVerificationFailed => "Invalid token signature"
  | .jwtClaimValidationFailed => "Invalid token claims"
  | .jwsInvalid => "Token verification failed"

/-- The `JwtVerificationResult` type from `jwt.ts`. -/
structure JwtVerificationResult where
  success : Bool
  payload : Option (List (String × JsValue))
  error : Option String
  deriving DecidableEq

/-- `typeof p.k === "string"`. -/
def isStrClaim (p : List (String × JsValue)) (k : String) : Bool :=
  match lookupClaim p k with
  | some (.vStr _) => true
  | _ => false

/-- The role-membership check of `validateJwtPayload`. -/
def roleClaimOk (p : List (String × JsValue)) : Bool :=
  match lookupClaim p "role" with
  | some (.vStr r) => r == "ADMIN" || r == "MANAGER" || r == "MEMBER"
  | _ => false

/-- `typeof p.isActive === "boolean"`. -/
def isBoolClaim (p : List (String × JsValue)) (k : String) : Bool :=
  match lookupClaim p k with
  | some (.vBool _) => true
  | _ => false

/-- `validateJwtPayload` from `jwt.ts`, on the object payloads jose returns
(the not-an-object guard never fires there): required string fields, role
membership, boolean `isActive`, and active-user gating.  Returns `none` when
the payload passes. -/
def validateJwtPayload (p : List (String × JsValue)) : Option JwtVerificationResult :=
  if ¬ (isStrClaim p "userId" && isStrClaim p "lineUserId" && isStrClaim p "role") then
    some { success := false, payload := none,
           error := some "Invalid token payload: missing required fields" }
  else if ¬ roleClaimOk p then
    some { success := false, payload := none,
           error := some "Invalid token payload: invalid role" }
  else if ¬ isBoolClaim p "isActive" then
    some { success := false, payload := none,
           error := some "Invalid token payload: isActive must be boolean" }
  else if lookupClaim p "isActive" = some (.vBool false) then
    some { success := false, payload := none, error := some "User is not active" }
  else none

/-- `verifyJwt` from `jwt.ts`: falsy-token guard, jose verification with
issuer and audience, payload validation, then the typed success result.  The
`try`/`catch` makes every outcome a returned result object, which the model
reflects by totality. -/
def verifyJwt (token : JoseToken) (nowSec : Int) : JwtVerificationResult :=
  if token.isFalsy then
    { success := false, payload := none, error := some "Token is required" }
  else
    match joseJwtVerify token jwtConfigSecret JWT_ISSUER JWT_AUDIENCE nowSec with
    | .error e => { success := false, payload := none, error := some (parseJwtError e) }
    | .ok payload =>
      match validateJwtPayload payload with
      | some res => res
      | none => { success := true, payload := some payload, error := none }

theorem isStrClaim_elim {p : List (String × JsValue)} {k : String}
    (h : isStrClaim p k = true) : ∃ s, lookupClaim p k = some (JsValue.vStr s) := by
  unfold isStrClaim at h
  split at h
  · next s heq => exact ⟨s, heq⟩
  · simp at h

theorem isStrClaim_intro {p : List (String × JsValue)} {k : String} {s : String}
    (h : lookupClaim p k = some (JsValue.vStr s)) : isStrClaim p k = true := by
  unfold isStrClaim
  rw [h]

theorem isBoolClaim_elim {p : List (String × JsValue)} {k : String}
    (h : isBoolClaim p k = true) : ∃ b, lookupClaim p k = some (JsValue.vBool b) := by
  unfold isBoolClaim at h
  split at h
  · next b heq => exact ⟨b, heq⟩
  · simp at h

theorem roleClaimOk_elim {p : List (String × JsValue)} (h : roleClaimOk p = true) :
    lookupClaim p "role" = some (JsValue.vStr "ADMIN") ∨
    lookupClaim p "role" = some (JsValue.vStr "MANAGER") ∨
    lookupClaim p "role" = some (JsValue.vStr "MEMBER") := by
  unfold roleClaimOk at h
  split at h
  · next r heq =>
    simp only [Bool.or_eq_true, beq_iff_eq] at h
    rcases h with (h | h) | h
    · exact Or.inl (h ▸ heq)
    · exact Or.inr (Or.inl (h ▸ heq))
    · exact Or.inr (Or.inr (h ▸ heq))
  · simp at h

theorem roleClaimOk_intro {p : List (String × JsValue)}
    (h : lookupClaim p "role" = some (JsValue.vStr "ADMIN") ∨
         lookupClaim p "role" = some (JsValue.vStr "MANAGER") ∨
         lookupClaim p "role" = some (JsValue.vStr "MEMBER")) : roleClaimOk p = true := by
  unfold roleClaimOk
  rcases h with h | h | h <;> rw [h] <;> rfl

theorem validateJwtPayload_some_fail {p : List (String × JsValue)}
    {res : JwtVerificationResult} (h : validateJwtPayload p = some res) :
    res.success = false ∧ res.payload = none := by
  unfold validateJwtPayload at h
  split at h
  · simp only [Option.some.injEq] at h
    subst h
    exact ⟨rfl, rfl⟩
  · split at h
    · simp only [Option.some.injEq] at h
      subst h
      exact ⟨rfl, rfl⟩
    · split at h
      · simp only [Option.some.injEq] at h
        subst h
        exact ⟨rfl, rfl⟩
      · split at h
        · simp only [Option.some.injEq] at h
          subst h
          exact ⟨rfl, rfl⟩
        · exact Option.noConfusion h

theorem validateJwtPayload_none_elim {p : List (String × JsValue)}
    (h : validateJwtPayload p = none) :
    (∃ s, lookupClaim p "userId" = some (JsValue.vStr s)) ∧
    (∃ s, lookupClaim p "lineUserId" = some (JsValue.vStr s)) ∧
    (lookupClaim p "role" = some (JsValue.vStr "ADMIN") ∨
     lookupClaim p "role" = some (JsValue.vStr "MANAGER") ∨
     lookupClaim p "role" = some (JsValue.vStr "MEMBER")) ∧
    lookupClaim p "isActive" = some (JsValue.vBool true) := by
  unfold validateJwtPayload at h
  split at h
  · exact Option.noConfusion h
  · next hc1 =>
    split at h
    · exact Option.noConfusion h
    · next hc2 =>
      split at h
      · exact Option.noConfusion h
      · next hc3 =>
        split at h
        · exact Option.noConfusion h
        · next hc4 =>
          have h1 := not_not.mp hc1
          have h2 := not_not.mp hc2
          have h3 := not_not.mp hc3
          simp only [Bool.and_eq_true] at h1
          obtain ⟨⟨hu, hl⟩, hr⟩ := h1
          obtain ⟨b, hb⟩ := isBoolClaim_elim h3
          refine ⟨isStrClaim_elim hu, isStrClaim_elim hl, roleClaimOk_elim h2, ?_⟩
          cases b
          · exact absurd hb hc4
          · exact hb

theorem validateJwtPayload_not_active {p : List (String × JsValue)}
    (h1 : isStrClaim p "userId" = true) (h2 : isStrClaim p "lineUserId" = true)
    (h3 : isStrClaim p "role" = true) (h4 : roleClaimOk p = true)
    (h5 : lookupClaim p "isActive" = some (JsValue.vBool false)) :
    validateJwtPayload p =
      some { success := false, payload := none, error := some "User is not active" } := by
  have hb : isBoolClaim p "isActive" = true := by
    unfold isBoolClaim
    rw [h5]
  have hn1 : ¬ ¬ ((isStrClaim p "userId" && isStrClaim p "lineUserId" &&
      isStrClaim p "role") = true) := by simp [h1, h2, h3]
  have hn2 : ¬ ¬ (roleClaimOk p = true) := by simp [h4]
  have hn3 : ¬ ¬ (isBoolClaim p "isActive" = true) := by simp [hb]
  unfold validateJwtPayload
  rw [if_neg hn1, if_neg hn2, if_neg hn3, if_pos h5]

/-- C9: `verifyJwt` is total (the model is a total function over all token
shapes and clock values) and gated: it succeeds only with a payload carrying
string `userId` and `lineUserId`, a `role` among `ADMIN`/`MANAGER`/`MEMBER`
and `isActive = true`; a correctly signed token that passes jose verification
but carries `isActive = false` is rejected with "User is not active"; and the
empty token string is rejected with "Token is required". -/
theorem verifyJwt_total_and_gated (token : JoseToken) (nowSec : Int) :
    ((verifyJwt token nowSec).success = true →
      ∃ claims, (verifyJwt token nowSec).payload = some claims ∧
        (∃ s, lookupClaim claims "userId" = some (JsValue.vStr s)) ∧
        (∃ s, lookupClaim claims "lineUserId" = some (JsValue.vStr s)) ∧
        (lookupClaim claims "role" = some (JsValue.vStr "ADMIN") ∨
         lookupClaim claims "role" = some (JsValue.vStr "MANAGER") ∨
         lookupClaim claims "role" = some (JsValue.vStr "MEMBER")) ∧
        lookupClaim claims "isActive" = some (JsValue.vBool true)) ∧
    (∀ claims, token = JoseToken.signed claims jwtConfigSecret →
      joseJwtVerify token jwtConfigSecret JWT_ISSUER JWT_AUDIENCE nowSec = .ok claims →
      lookupClaim claims "isActive" = some (JsValue.vBool false) →
      (∃ s, lookupClaim claims "userId" = some (JsValue.vStr s)) →
      (∃ s, lookupClaim claims "lineUserId" = some (JsValue.vStr s)) →
      (lookupClaim claims "role" = some (JsValue.vStr "ADMIN") ∨
       lookupClaim claims "role" = some (JsValue.vStr "MANAGER") ∨
       lookupClaim claims "role" = some (JsValue.vStr "MEMBER")) →
      verifyJwt token nowSec =
        { success := false, payload := none, error := some "User is not active" }) ∧
    (token = JoseToken.emptyStr →
      verifyJwt token nowSec =
        { success := false, payload := none, error := some "Token is required" }) := by
  refine ⟨?_, ?_, ?_⟩
  · intro hs
    unfold verifyJwt at hs ⊢
    by_cases hf : token.isFalsy = true
    · rw [if_pos hf] at hs
      simp at hs
    · rw [if_neg hf] at hs ⊢
      cases hj : joseJwtVerify token jwtConfigSecret JWT_ISSUER JWT_AUDIENCE nowSec with
      | error e =>
        simp only [hj] at hs
        simp at hs
      | ok payload =>
        simp only [hj] at hs ⊢
        cases hv : validateJwtPayload payload with
        | some res =>
          simp only [hv] at hs
          rw [(validateJwtPayload_some_fail hv).1] at hs
          exact Bool.noConfusion hs
        | none =>
          simp only [hv] at hs ⊢
          obtain ⟨hu, hl, hr, ha⟩ := validateJwtPayload_none_elim hv
          exact ⟨payload, rfl, hu, hl, hr, ha⟩
  · intro claims htok hjose hinact hu hl hr
    obtain ⟨su, hu⟩ := hu
    obtain ⟨sl, hl⟩ := hl
    have hval := validateJwtPayload_not_active (isStrClaim_intro hu) (isStrClaim_intro hl)
      (by rcases hr with h | h | h <;> exact isStrClaim_intro h)
      (roleClaimOk_intro hr) hinact
    have hf : ¬ (token.isFalsy = true) := by
      subst htok
      simp [JoseToken.isFalsy]
    unfold verifyJwt
    rw [if_neg hf]
    simp only [hjose, hval]
  · intro he
    subst he
    rfl

/-- Concrete claims set of a correctly signed but inactive user's token. -/
def demoInactiveClaims : List (String × JsValue) :=
  [("userId", .vStr "u1"), ("lineUserId", .vStr "l1"), ("displayName", .vStr "d1"),
   ("role", .vStr "MEMBER"), ("isActive", .vBool false),
   ("iss", .vStr "fuyugyo"), ("aud", .vStr "fuyugyo-users"), ("exp", .vNum 100)]

/-- Witness for C9 at concrete inputs: an inactive user's signed token at
time 0 yields "User is not active", and the empty token yields
"Token is required". -/
theorem verifyJwt_total_and_gated_witness :
    verifyJwt (JoseToken.signed demoInactiveClaims jwtConfigSecret) 0 =
      { success := false, payload := none, error := some "User is not active" } ∧
    verifyJwt JoseToken.emptyStr 0 =
      { success := false, payload := none, error := some "Token is required" } :=
  ⟨(verifyJwt_total_and_gated (JoseToken.signed demoInactiveClaims jwtConfigSecret) 0).2.1
      demoInactiveClaims rfl rfl rfl ⟨"u1", rfl⟩ ⟨"l1", rfl⟩ (Or.inr (Or.inr rfl)),
   (verifyJwt_total_and_gated JoseToken.emptyStr 0).2.2 rfl⟩

/-- C3: verifying a freshly generated token before its expiry with the
configured secret succeeds, and the verified payload's `userId`,
`lineUserId`, `displayName`, `role` and `isActive` claims equal the input
payload's fields. -/
theorem generate_verify_jwt_round_trip (p : JwtPayloadInput) (issuedAt verifyAt : Int)
    (hActive : p.isActive = true)
    (hFresh : verifyAt < issuedAt + jwtConfigExpiresInSeconds) :
    (verifyJwt (generateJwt p issuedAt) verifyAt).success = true ∧
    ∃ claims,
      (verifyJwt (generateJwt p issuedAt) verifyAt).payload = some claims ∧
      lookupClaim claims "userId" = some (JsValue.vStr p.userId) ∧
      lookupClaim claims "lineUserId" = some (JsValue.vStr p.lineUserId) ∧
      lookupClaim claims "displayName" = some (JsValue.vStr p.displayName) ∧
      lookupClaim claims "role" = some (JsValue.vStr p.role.toClaim) ∧
      lookupClaim claims "isActive" = some (JsValue.vBool p.isActive) := by
  obtain ⟨u, l, d, r, a⟩ := p
  have ha : a = true := hActive
  subst ha
  have hexpn : ¬ (issuedAt + jwtConfigExpiresInSeconds ≤ verifyAt) := by omega
  have hval : validateJwtPayload
      [("userId", JsValue.vStr u), ("lineUserId", JsValue.vStr l),
       ("displayName", JsValue.vStr d), ("role", JsValue.vStr r.toClaim),
       ("isActive", JsValue.vBool true), ("iat", JsValue.vNum issuedAt),
       ("iss", JsValue.vStr JWT_ISSUER), ("aud", JsValue.vStr JWT_AUDIENCE),
       ("exp", JsValue.vNum (issuedAt + jwtConfigExpiresInSeconds))] = none := by
    cases r <;> rfl
  have hjose : joseJwtVerify (generateJwt ⟨u, l, d, r, true⟩ issuedAt) jwtConfigSecret
      JWT_ISSUER JWT_AUDIENCE verifyAt =
      .ok [("userId", JsValue.vStr u), ("lineUserId", JsValue.vStr l),
       ("displayName", JsValue.vStr d), ("role", JsValue.vStr r.toClaim),
       ("isActive", JsValue.vBool true), ("iat", JsValue.vNum issuedAt),
       ("iss", JsValue.vStr JWT_ISSUER), ("aud", JsValue.vStr JWT_AUDIENCE),
       ("exp", JsValue.vNum (issuedAt + jwtConfigExpiresInSeconds))] := by
    have hiss : lookupClaim
        [("userId", JsValue.vStr u), ("lineUserId", JsValue.vStr l),
         ("displayName", JsValue.vStr d), ("role", JsValue.vStr r.toClaim),
         ("isActive", JsValue.vBool true), ("iat", JsValue.vNum issuedAt),
         ("iss", JsValue.vStr JWT_ISSUER), ("aud", JsValue.vStr JWT_AUDIENCE),
         ("exp", JsValue.vNum (issuedAt + jwtConfigExpiresInSeconds))] "iss"
        = some (JsValue.vStr JWT_ISSUER) := rfl
    have haud : lookupClaim
        [("userId", JsValue.vStr u), ("lineUserId", JsValue.vStr l),
         ("displayName", JsValue.vStr d), ("role", JsValue.vStr r.toClaim),
         ("isActive", JsValue.vBool true), ("iat", JsValue.vNum issuedAt),
         ("iss", JsValue.vStr JWT_ISSUER), ("aud", JsValue.vStr JWT_AUDIENCE),
         ("exp", JsValue.vNum (issuedAt + jwtConfigExpiresInSeconds))] "aud"
        = some (JsValue.vStr JWT_AUDIENCE) := rfl
    have hexp : lookupClaim
        [("userId", JsValue.vStr u), ("lineUserId", JsValue.vStr l),
         ("displayName", JsValue.vStr d), ("role", JsValue.vStr r.toClaim),
         ("isActive", JsValue.vBool true), ("iat", JsValue.vNum issuedAt),
         ("iss", JsValue.vStr JWT_ISSUER), ("aud", JsValue.vStr JWT_AUDIENCE),
         ("exp", JsValue.vNum (issuedAt + jwtConfigExpiresInSeconds))] "exp"
        = some (JsValue.vNum (issuedAt + jwtConfigExpiresInSeconds)) := rfl
    simp only [generateJwt, joseJwtVerify, hiss, haud, hexp, ne_eq, not_true_eq_false,
      if_false, reduceIte, hexpn]
  have hfalsy : ¬ ((generateJwt ⟨u, l, d, r, true⟩ issuedAt).isFalsy = true) := by
    simp [generateJwt, JoseToken.isFalsy]
  have hver : verifyJwt (generateJwt ⟨u, l, d, r, true⟩ issuedAt) verifyAt =
      { success := true,
        payload := some [("userId", JsValue.vStr u), ("lineUserId", JsValue.vStr l),
          ("displayName", JsValue.vStr d), ("role", JsValue.vStr r.toClaim),
          ("isActive", JsValue.vBool true), ("iat", JsValue.vNum issuedAt),
          ("iss", JsValue.vStr JWT_ISSUER), ("aud", JsValue.vStr JWT_AUDIENCE),
          ("exp", JsValue.vNum (issuedAt + jwtConfigExpiresInSeconds))],
        error := none } := by
    unfold verifyJwt
    rw [if_neg hfalsy]
    simp only [hjose, hval]
  rw [hver]
  exact ⟨rfl, _, rfl, rfl, rfl, rfl, rfl, rfl⟩

/-- Concrete payload used by the round-trip witness. -/
def demoPayload : JwtPayloadInput :=
  { userId := "user-1", lineUserId := "line-1", displayName := "Taro",
    role := Role.MANAGER, isActive := true }

/-- Witness for C3 at a concrete payload, issued at time 0 and verified at
time 1000, i.e. before the 48-hour expiry. -/
theorem generate_verify_jwt_round_trip_witness :
    demoPayload.isActive = true ∧ (1000 : Int) < 0 + jwtConfigExpiresInSeconds ∧
    ((verifyJwt (generateJwt demoPayload 0) 1000).success = true ∧
     ∃ claims,
       (verifyJwt (generateJwt demoPayload 0) 1000).payload = some claims ∧
       lookupClaim claims "userId" = some (JsValue.vStr demoPayload.userId) ∧
       lookupClaim claims "lineUserId" = some (JsValue.vStr demoPayload.lineUserId) ∧
       lookupClaim claims "displayName" = some (JsValue.vStr demoPayload.displayName) ∧
       lookupClaim claims "role" = some (JsValue.vStr demoPayload.role.toClaim) ∧
       lookupClaim claims "isActive" = some (JsValue.vBool demoPayload.isActive)) :=
  ⟨rfl, by decide, generate_verify_jwt_round_trip demoPayload 0 1000 rfl (by decide)⟩
